import Mathlib

/-!
Verification development for the XBRL financial-statement processing engine
(`xbrl_processor.py`).  The Python code is shallowly embedded: pandas cells
become an inductive `Cell` type, DataFrame column identifiers become `Col`,
flattened records become `Row`, and each pipeline stage
(`analyze_dataframe_structure`, `convert_to_pivot_format`,
`improve_hierarchy_structure`, `save_to_parquet`, the entry points) becomes a
pure Lean function mirroring the Python control flow.  Machine floats are
modelled as rationals; per-cell exceptions are modelled as `Option`; the
read-only corp directory, the receipt-date mapping and the wall clock are
passed as explicit parameters.
-/

namespace DartXbrl


/-! ## String utilities mirroring the Python primitives used by the source.
All of them recurse structurally over character lists so that concrete inputs
evaluate inside the kernel. -/

/-- Python-style split of a character list on a nonempty separator; the fuel
argument (instantiated with more than the list length) makes the recursion
structural. -/
def splitOnAuxCL (sep : List Char) : Nat → List Char → List (List Char)
  | 0, _ => [[]]
  | Nat.succ fuel, cs =>
      if sep.isPrefixOf cs ∧ sep ≠ [] then
        [] :: splitOnAuxCL sep fuel (cs.drop sep.length)
      else
        match cs with
        | [] => [[]]
        | c :: t =>
            match splitOnAuxCL sep fuel t with
            | [] => [[c]]
            | h :: hs => (c :: h) :: hs

/-- Python `s.split(pat)` for a nonempty pattern. -/
def splitOnStr (s pat : String) : List String :=
  (splitOnAuxCL pat.toList (s.toList.length + 1) s.toList).map String.mk

/-- Python `pat in s` substring test (all patterns the source uses are
nonempty). -/
def containsSub (s pat : String) : Bool :=
  (splitOnStr s pat).length != 1

/-- Python `s.strip()`. -/
def trimStr (s : String) : String :=
  String.mk (((s.toList.dropWhile Char.isWhitespace).reverse.dropWhile
    Char.isWhitespace).reverse)

/-- Python `s.startswith(p)`. -/
def startsWithStr (s p : String) : Bool :=
  p.toList.isPrefixOf s.toList

/-- Python `s.endswith(p)`. -/
def endsWithStr (s p : String) : Bool :=
  p.toList.isSuffixOf s.toList

/-- Python `s[:n]`. -/
def takeStr (s : String) (n : Nat) : String :=
  String.mk (s.toList.take n)

/-- Python `s[n:]`. -/
def dropStr (s : String) (n : Nat) : String :=
  String.mk (s.toList.drop n)

/-- Python `s.replace(c, '')` for a single-character pattern. -/
def removeAll (s : String) (c : Char) : String :=
  String.mk (s.toList.filter (fun x => x ≠ c))

/-- All characters are ASCII digits. -/
def allDigits (s : String) : Bool :=
  s.toList.all Char.isDigit

/-- Python `s.lstrip('0')`. -/
def strip0 (s : String) : String :=
  String.mk (s.toList.dropWhile (· = '0'))

/-- Python `pathlib.Path(s).name`: the component after the last slash. -/
def pathName (s : String) : String :=
  (splitOnStr s "/").getLastD s

/-- Digits of a numeral to a natural number. -/
def digitsToNat (cs : List Char) : Nat :=
  cs.foldl (fun n c => n * 10 + (c.toNat - 48)) 0

/-- Python `int(s)` on a string: strips whitespace, allows one sign, then
requires a nonempty digit run; any other shape raises (`none`). -/
def pyInt? (s : String) : Option Int :=
  let t := (trimStr s).toList
  let p : Bool × List Char :=
    match t with
    | '-' :: rest => (true, rest)
    | '+' :: rest => (false, rest)
    | _ => (false, t)
  if p.2 ≠ [] ∧ p.2.all Char.isDigit then
    some ((if p.1 then -1 else 1) * (digitsToNat p.2 : Int))
  else none

/-- Python `float(s)` on a string, restricted to the decimal numerals the
pipeline feeds it: optional sign, digits, optional fractional digits. -/
def pyFloatOfString? (s : String) : Option ℚ :=
  let t := (trimStr s).toList
  let p : Bool × List Char :=
    match t with
    | '-' :: rest => (true, rest)
    | '+' :: rest => (false, rest)
    | _ => (false, t)
  let q? : Option ℚ :=
    match splitOnAuxCL ['.'] (p.2.length + 1) p.2 with
    | [a] => if a ≠ [] ∧ a.all Char.isDigit then some ((digitsToNat a : ℚ)) else none
    | [a, b] =>
        if a ≠ [] ∧ a.all Char.isDigit ∧ b ≠ [] ∧ b.all Char.isDigit then
          some ((digitsToNat a : ℚ) + (digitsToNat b : ℚ) / ((10 : ℚ) ^ b.length))
        else none
    | _ => none
  q?.map (fun q => if p.1 then -q else q)

/-! ## Cells and column identifiers -/

/-- A pandas cell: missing (`NaN`/`None`), a number, or a string. -/
inductive Cell where
  | null : Cell
  | num (q : ℚ) : Cell
  | str (s : String) : Cell
deriving DecidableEq, Repr

/-- Python `float(value)` on a cell; `none` models both `pd.notna(value)` being false
and a coercion `ValueError`/`TypeError` (caught and skipped per cell). -/
def cellFloat? : Cell → Option ℚ
  | Cell.null => none
  | Cell.num q => some q
  | Cell.str s => pyFloatOfString? s

/-- The string content of a fixed-field cell (labels and class levels are
strings in the upstream matrices). -/
def cellStr : Cell → String
  | Cell.str s => s
  | _ => ""

/-- The numeric content of an `order_no` cell (the column is created by
`add_metadata_to_dataframe` as an integer range). -/
def cellRat : Cell → ℚ
  | Cell.num q => q
  | _ => 0

/-- The second component of a 2-tuple column identifier: a string (a fixed
field name, or free text) or a tuple of strings (a statement-scope marker such
as `('연결재무제표',)`). -/
inductive ColSnd where
  | str (s : String) : ColSnd
  | tup (ss : List String) : ColSnd
deriving DecidableEq, Repr

/-- A DataFrame column identifier: either a bare string or a 2-tuple. -/
inductive Col where
  | str (s : String) : Col
  | pair (fst : String) (snd : ColSnd) : Col
deriving DecidableEq, Repr

/-- The input matrix: an ordered list of column identifiers and rows of cells
aligned positionally with the columns. -/
structure DataFrame where
  cols : List Col
  rows : List (List Cell)
deriving DecidableEq, Repr

/-- Cell lookup `row[col]` for a row of `df`: the cell at the column's position. -/
def getCell (cols : List Col) (cells : List Cell) (c : Col) : Cell :=
  match (cols.zip cells).find? (fun p => p.1 = c) with
  | some p => p.2
  | none => Cell.null

/-! ## Structural analyzer (`analyze_dataframe_structure`) -/

/-- The eight fixed metadata fields the analyzer matches columns against. -/
def fixedFieldNames : List String :=
  ["order_no", "concept_id", "label_ko", "label_en", "class0", "class1", "class2", "class3"]

/-- The five metadata columns injected by `add_metadata_to_dataframe`, which
the analyzer skips when they appear as bare string columns. -/
def injectedMetaNames : List String :=
  ["yyyy", "month", "corp_code", "corp_name", "report_type"]

/-- The `columns_info` dictionary: field name to matched column, with later
matches overwriting earlier ones. -/
def ColumnsInfo := List (String × Col)

instance : DecidableEq ColumnsInfo := by
  unfold ColumnsInfo; infer_instance

/-- Dictionary write `columns_info[name] = col`. -/
def setInfo (ci : ColumnsInfo) (n : String) (c : Col) : ColumnsInfo :=
  (n, c) :: ci.filter (fun p => p.1 ≠ n)

/-- Dictionary read `columns_info[name]` (`None` when never assigned). -/
def lookupInfo (ci : ColumnsInfo) (n : String) : Option Col :=
  (ci.find? (fun p => p.1 = n)).map (fun p => p.2)

/-- One iteration of the analyzer's column loop. -/
def analyzeStep (acc : ColumnsInfo × List Col) (col : Col) : ColumnsInfo × List Col :=
  match col with
  | Col.pair _ (ColSnd.str ct) =>
      if ct ∈ fixedFieldNames then (setInfo acc.1 ct col, acc.2)
      else (acc.1, acc.2 ++ [col])
  | Col.pair _ (ColSnd.tup _) => (acc.1, acc.2 ++ [col])
  | Col.str s =>
      if s ∈ injectedMetaNames then (acc.1, acc.2)
      else if s ∈ fixedFieldNames then (setInfo acc.1 s col, acc.2)
      else (acc.1, acc.2 ++ [col])

/-- The analyzer `analyze_dataframe_structure`: classify every column into the fixed-field
mapping or the ordered data-column list. -/
def analyze_dataframe_structure (cols : List Col) : ColumnsInfo × List Col :=
  cols.foldl analyzeStep ([], [])

/-- Shape-level classification of a column as a data column, matching the
branch the analyzer takes for it. -/
def isDataCol : Col → Bool
  | Col.pair _ (ColSnd.str ct) => decide (ct ∉ fixedFieldNames)
  | Col.pair _ (ColSnd.tup _) => true
  | Col.str s => decide (s ∉ injectedMetaNames) && decide (s ∉ fixedFieldNames)

/-- Shape-level test for a bare string column the analyzer skips. -/
def isSkippedCol : Col → Bool
  | Col.str s => decide (s ∈ injectedMetaNames)
  | _ => false

/-- The fixed field name a column matches, if any. -/
def fixedNameOf : Col → Option String
  | Col.pair _ (ColSnd.str ct) => if ct ∈ fixedFieldNames then some ct else none
  | Col.str s => if s ∈ injectedMetaNames then none
                 else if s ∈ fixedFieldNames then some s else none
  | _ => none

/-- The column values stored in a `columns_info` dictionary. -/
def infoVals (ci : ColumnsInfo) : List Col :=
  ci.map (fun p => p.2)

/-- Whether a `columns_info` key has been assigned. -/
def hasKey (ci : ColumnsInfo) (n : String) : Bool :=
  (ci.find? (fun p => p.1 = n)).isSome

/-! ## Filing metadata and flattened records -/

/-- The per-filing metadata dictionary built by `extract_metadata_from_xbrl`
and augmented by the entry points (`report_type`, optionally `report_nm`). -/
structure Metadata where
  yyyy : String := ""
  month : String := ""
  corp_code : String := "00000000"
  corp_name : String := ""
  report_type : String := "UNKNOWN"
  report_nm : Option String := none
deriving DecidableEq, Repr

/-- One flattened record produced by `convert_to_pivot_format`. -/
structure Row where
  order_no : ℚ
  yyyy : String
  month : String
  corp_code : String
  corp_name : String
  report_type : String
  concept_id : String
  label_ko : String
  label_en : String
  class0 : String
  class1 : String
  class2 : String
  class3 : String
  fs_type : String
  period : String
  amount : ℚ
deriving DecidableEq, Repr

/-! ## Period parsing helpers -/

/-- Format `YYYYMMDD` to `YYYY-MM-DD`. -/
def fmtDate (s : String) : String :=
  String.mk (s.toList.take 4 ++ ['-'] ++ (s.toList.drop 4).take 2
    ++ ['-'] ++ (s.toList.drop 6).take 2)

/-- Regex `^\d{8}$`. -/
def isDate8 (s : String) : Bool :=
  s.toList.length == 8 && s.toList.all Char.isDigit

/-- Regex `^\d{8}-\d{8}$`. -/
def isDateRange (s : String) : Bool :=
  s.toList.length == 17 && (s.toList.take 8).all Char.isDigit
    && ((s.toList.drop 8).take 1 == ['-']) && (s.toList.drop 9).all Char.isDigit

/-- The single-quote character that delimits tokens in the string form of a
tuple column. -/
def quoteChar : Char := Char.ofNat 39

/-- Search for a quoted 8-digit token, as the date regex does on the string
form of a tuple column. -/
def findQuoted8 : List Char → Option String
  | [] => none
  | c :: rest =>
      match rest with
      | a :: b :: c2 :: d :: e :: f :: g :: h :: i :: _ =>
          if c = quoteChar ∧ i = quoteChar
              ∧ [a, b, c2, d, e, f, g, h].all Char.isDigit then
            some (String.mk [a, b, c2, d, e, f, g, h])
          else findQuoted8 rest
      | _ => findQuoted8 rest

/-- Search for a quoted statement-scope marker (연결재무제표 or 별도재무제표
between single quotes), as the scope regex does. -/
def findQuotedFs (cs : List Char) : Option String :=
  let conMark := [quoteChar] ++ "연결재무제표".toList ++ [quoteChar]
  let sepMark := [quoteChar] ++ "별도재무제표".toList ++ [quoteChar]
  match cs with
  | [] => none
  | _ :: rest =>
      if conMark.isPrefixOf cs then some "연결재무제표"
      else if sepMark.isPrefixOf cs then some "별도재무제표"
      else findQuotedFs rest

/-- The fallback decoder `parse_period_info`: decode a bare string column into a formatted period
and a consolidated/separate tag, mirroring the Python branch order. -/
def parse_period_info (col : String) : String × String :=
  let tupleShaped := startsWithStr col "(" && endsWithStr col ")"
  let eightPrefix := (col.toList.take 8).length == 8 && (col.toList.take 8).all Char.isDigit
  if tupleShaped = true ∧ (findQuoted8 col.toList).isSome then
    match findQuoted8 col.toList with
    | some ds =>
        let fs := match findQuotedFs col.toList with
          | some m => if containsSub m "연결" then "연결" else "별도"
          | none => "별도"
        (fmtDate ds, fs)
    | none => (col, "연결")
  else if tupleShaped = false ∧ eightPrefix = true then
    (fmtDate (takeStr col 8), "연결")
  else if tupleShaped = false ∧ eightPrefix = false
          ∧ containsSub col "-" = true ∧ (removeAll col '-').toList.length = 16
          ∧ (splitOnStr col "-").length = 2
          ∧ ((splitOnStr col "-").getD 0 "").toList.length = 8
          ∧ ((splitOnStr col "-").getD 1 "").toList.length = 8 then
    (fmtDate ((splitOnStr col "-").getD 0 "") ++ " ~ " ++ fmtDate ((splitOnStr col "-").getD 1 ""),
     "연결")
  else
    (col, if containsSub col "연결" then "연결"
          else if containsSub col "별도" then "별도" else "연결")

/-! ## Pivot transformer (`convert_to_pivot_format`) -/

/-- The per-row record template carrying fixed fields and filing metadata. -/
def baseRow (ci : ColumnsInfo) (cols : List Col) (idx : Nat) (cells : List Cell)
    (md : Metadata) : Row :=
  let fieldStr := fun (n : String) =>
    match lookupInfo ci n with
    | some c => cellStr (getCell cols cells c)
    | none => ""
  { order_no := match lookupInfo ci "order_no" with
      | some c => cellRat (getCell cols cells c)
      | none => ((idx + 1 : Nat) : ℚ)
    yyyy := md.yyyy
    month := md.month
    corp_code := md.corp_code
    corp_name := md.corp_name
    report_type := md.report_type
    concept_id := fieldStr "concept_id"
    label_ko := fieldStr "label_ko"
    label_en := fieldStr "label_en"
    class0 := fieldStr "class0"
    class1 := fieldStr "class1"
    class2 := fieldStr "class2"
    class3 := fieldStr "class3"
    fs_type := "연결"
    period := ""
    amount := 0 }

/-- Process one (row, data column) cell: emit a record only when the cell
coerces to a nonzero number and the column key decodes to a period. -/
def pivotCell (base : Row) (cols : List Col) (cells : List Cell) (col : Col) : List Row :=
  match cellFloat? (getCell cols cells col) with
  | none => []
  | some q =>
      if q ≠ 0 then
        match col with
        | Col.pair date_str snd =>
            if isDate8 date_str || isDateRange date_str then
              let fs_type := match snd with
                | ColSnd.tup (h :: _) => if containsSub h "연결" then "연결" else "별도"
                | _ => "연결"
              let period :=
                if containsSub date_str "-" = true
                    ∧ (removeAll date_str '-').toList.length = 16 then
                  match splitOnStr date_str "-" with
                  | [s, e] => fmtDate s ++ " ~ " ++ fmtDate e
                  | _ => date_str
                else if date_str.toList.length = 8 then fmtDate date_str
                else date_str
              [{ base with period := period, fs_type := fs_type, amount := q }]
            else []
        | Col.str s =>
            if s ∈ injectedMetaNames then []
            else
              let pf := parse_period_info s
              [{ base with period := pf.1, fs_type := pf.2, amount := q }]
      else []

/-- The `converted_data` list: every emitted record, in row-major order. -/
def pivotRows (df : DataFrame) (md : Metadata) : List Row :=
  let a := analyze_dataframe_structure df.cols
  (df.rows.enum).flatMap (fun p =>
    let base := baseRow a.1 df.cols p.1 p.2 md
    a.2.flatMap (fun col => pivotCell base df.cols p.2 col))

/-- One attempt of the `(YYYY.MM)` regex at a fixed position of the report
title: six digits between a parenthesis-dot frame. -/
def ymAt (c : Char) (rest : List Char) : Option String :=
  match c, rest with
  | '(', a :: b :: c2 :: d :: '.' :: e :: f :: ')' :: _ =>
      if [a, b, c2, d, e, f].all Char.isDigit then some (String.mk [a, b, c2, d, e, f])
      else none
  | _, _ => none

/-- The `extract_period_from_report_name` scan: first `(YYYY.MM)` parenthetical,
as `YYYYMM`, else the empty string. -/
def extractYmAux : List Char → String
  | [] => ""
  | c :: rest =>
      match ymAt c rest with
      | some s => s
      | none => extractYmAux rest

/-- Search the report title for a `(YYYY.MM)` marker. -/
def extract_period_from_report_name (report_nm : String) : String :=
  extractYmAux report_nm.toList

/-- The target `YYYYMM` the period filter uses: report-title extraction first,
then the metadata year/month when both pass the length checks. -/
def reportPeriodYyyymm (md : Metadata) : Option String :=
  let fromNm := match md.report_nm with
    | some nm => extract_period_from_report_name nm
    | none => ""
  let r := if fromNm = "" then
      (if md.yyyy ≠ "" ∧ md.month ≠ "" ∧ md.yyyy.length = 4 ∧ md.month.length = 2 then
        md.yyyy ++ md.month
      else "")
    else fromNm
  if r ≠ "" ∧ r.length = 6 then some r else none

/-- Format `YYYYMM` to the `YYYY-MM` substring pattern the filter matches on. -/
def targetPattern (r : String) : String :=
  takeStr r 4 ++ "-" ++ takeStr (dropStr r 4) 2

/-- The report-period filtering block of `convert_to_pivot_format`. -/
def applyPeriodFilter (md : Metadata) (rs : List Row) : List Row :=
  if rs.isEmpty then rs
  else
    match reportPeriodYyyymm md with
    | some r => rs.filter (fun row => containsSub row.period (targetPattern r))
    | none => rs

/-- Comparison used by the order-and-period sort of the pivot output. -/
def rowLe (a b : Row) : Bool :=
  decide (a.order_no < b.order_no)
    || (a.order_no == b.order_no && decide (a.period < b.period || a.period = b.period))

/-- The transformer `convert_to_pivot_format`: pivot, filter by report period, sort. -/
def convert_to_pivot_format (df : DataFrame) (md : Metadata) : List Row :=
  if df.rows.isEmpty then []
  else ((applyPeriodFilter md (pivotRows df md)).mergeSort rowLe)

/-! ## Hierarchy normalizer (`improve_hierarchy_structure`) -/

/-- Step 1 mask and assignment: relabel a `[개요]` placeholder `class1` on a
statement-of-position record to the corresponding 총계 label. -/
def relabelOverview (ov total : String) (r : Row) : Row :=
  if r.report_type = "BS" ∧ r.class1 = ov then { r with class1 := total } else r

/-- Step 2 mask and assignment: clear `class2` when both levels carry the same
총계 label. -/
def clearDupClass2 (total : String) (r : Row) : Row :=
  if r.report_type = "BS" ∧ r.class1 = total ∧ r.class2 = total then
    { r with class2 := "" }
  else r

/-- Step 3 assignment: give the 총계 record (empty `class2`) a new ordinal. -/
def setOrderIf (total : String) (v : ℚ) (r : Row) : Row :=
  if r.report_type = "BS" ∧ r.class1 = total ∧ r.class2 = "" then
    { r with order_no := v }
  else r

/-- The child-row mask used when computing a section's minimum ordinal. -/
def childMask (total : String) (r : Row) : Bool :=
  r.report_type == "BS" && r.class1 == total && r.class2 != ""

/-- Minimum ordinal over a nonempty selection of rows. -/
def minOrderD : List Row → ℚ
  | [] => 0
  | r :: rest => rest.foldl (fun a x => min a x.order_no) r.order_no

/-- Step 3 for 부채총계/자본총계: move the section total to the minimum ordinal
of its child rows, when any child exists. -/
def reassignTotal (total : String) (rs : List Row) : List Row :=
  let children := rs.filter (childMask total)
  if children.isEmpty then rs
  else rs.map (setOrderIf total (minOrderD children))

/-- The record-removal predicate of step 4 (`자본과부채총계` rows). -/
def keepRow (r : Row) : Bool :=
  !(r.report_type == "BS" && r.label_ko == "자본과부채총계")

/-- The normalizer `improve_hierarchy_structure`: the four normalization passes, in source
order, applied to statement-of-position records only. -/
def improve_hierarchy_structure (rs : List Row) : List Row :=
  let rs := rs.map (relabelOverview "자산 [개요]" "자산총계")
  let rs := rs.map (relabelOverview "부채 [개요]" "부채총계")
  let rs := rs.map (relabelOverview "자본 [개요]" "자본총계")
  let rs := rs.map (clearDupClass2 "자산총계")
  let rs := rs.map (clearDupClass2 "부채총계")
  let rs := rs.map (clearDupClass2 "자본총계")
  let rs := rs.map (setOrderIf "자산총계" 0)
  let rs := reassignTotal "부채총계" rs
  let rs := reassignTotal "자본총계" rs
  rs.filter keepRow

/-! ## Serializer (`save_to_parquet`) -/

/-- The output record written to the columnar file. -/
structure OutRow where
  order_no : ℚ
  yyyy : String
  month : String
  corp_code : String
  corp_name : String
  report_type : String
  account_id : String
  account_name : String
  account_name_en : String
  class0 : String
  class1 : String
  class2 : String
  class3 : String
  fs_type : String
  period : String
  amount : ℚ
  report_name : String
  receipt_ymd : String
  class1_id : String
  class2_id : String
  class3_id : String
  crawl_time : String
deriving DecidableEq, Repr

/-- The BS 총계 rewriting applied to `account_name` and `class1` just before
serialization (자산총계 → 자산, 부채총계 → 부채, 자본총계 → 자본). -/
def totalRename (rt name : String) : String :=
  if rt = "BS" then
    if name = "자산총계" then "자산"
    else if name = "부채총계" then "부채"
    else if name = "자본총계" then "자본"
    else name
  else name

/-- Map `report_type` to the human-readable report name. -/
def reportName (rt : String) : String :=
  if rt = "BS" then "재무상태표"
  else if rt = "CIS" then "포괄손익계산서"
  else ""

/-- Dictionary write with overwrite, for the filename→receipt-date mapping and
the account-name→id mapping. -/
def dictInsert (m : List (String × String)) (k v : String) : List (String × String) :=
  (k, v) :: m.filter (fun p => p.1 ≠ k)

/-- Dictionary read with an empty-string default. -/
def dictGet (m : List (String × String)) (k : String) : String :=
  match m.find? (fun p => p.1 = k) with
  | some p => p.2
  | none => ""

/-- Lookup `get_rcept_dt_by_xbrl_path`: look the file's name up in the
filename→receipt-date mapping, empty string when absent. -/
def get_rcept_dt (mp : List (String × String)) (xbrl_file_path : String) : String :=
  dictGet mp (pathName xbrl_file_path)

/-- The `account_name → account_id` mapping built over the (already renamed)
record set; later rows overwrite earlier ones. -/
def buildNameToId (rs : List Row) : List (String × String) :=
  rs.foldl (fun acc r =>
    let an := totalRename r.report_type r.label_ko
    if an ≠ "" then dictInsert acc an r.concept_id else acc) []

/-- Derivation of a class-level id column from a class label. -/
def classId (m : List (String × String)) (x : String) : String :=
  if x ≠ "" then dictGet m x else ""

/-- A valid raw receipt date: an 8-digit numeral string. -/
def valid8 (s : String) : Bool :=
  s.toList.length == 8 && s.toList.all Char.isDigit

/-- The `YYYY.MM` year/month of one endpoint of a `~` range:
`int(part.split('-')[0])` and `int(part.split('-')[1])`, `none` on any
`ValueError`/`IndexError`. -/
def parseYm (s : String) : Option (Int × Int) :=
  match splitOnStr s "-" with
  | y :: m :: _ =>
      match pyInt? y, pyInt? m with
      | some a, some b => some (a, b)
      | _, _ => none
  | _ => none

/-- The CIS period-bucket rewrite of `save_to_parquet`: `3개월` for ranges of
at most three calendar months and for bare 10-character dates, `누적`
otherwise, except that a `~` string not splitting in two parts is left as is. -/
def cisBucket (p : String) : String :=
  if containsSub p "~" then
    match splitOnStr p "~" with
    | [s, e] =>
        match parseYm (trimStr s), parseYm (trimStr e) with
        | some sy_sm, some ey_em =>
            if (ey_em.1 - sy_sm.1) * 12 + (ey_em.2 - sy_sm.2) + 1 ≤ 3 then "3개월"
            else "누적"
        | _, _ => "누적"
    | _ => p
  else if p.toList.length = 10 ∧ containsSub p "-" = true then "3개월"
  else "누적"

/-- The period rewrite applied to every record at serialization time. -/
def rewritePeriod (rt p : String) : String :=
  if rt = "CIS" then cisBucket p
  else if rt = "BS" then "당기"
  else p

/-- The receipt-date resolution of `save_to_parquet`: the explicit parameter
when it is a valid 8-digit date, else the filename mapping, else the current
date. -/
def resolve_receipt (receipt_ymd : Option String) (xbrl_file_path : Option String)
    (mp : List (String × String)) (currentDate : String) : String :=
  let sOf : String := match receipt_ymd with
    | some s => s
    | none => "None"
  let truthy : Bool := match receipt_ymd with
    | some s => s != ""
    | none => false
  let inL : Bool := sOf == "None" || sOf == "null" || sOf == ""
  let final : Option String :=
    if truthy && !inL && valid8 sOf then some sOf
    else
      match xbrl_file_path with
      | some p =>
          if !truthy || inL then
            let m := get_rcept_dt mp p
            if m ≠ "" then some m else receipt_ymd
          else receipt_ymd
      | none => receipt_ymd
  match final with
  | some f =>
      if f ≠ "" ∧ valid8 f = true then fmtDate f
      else currentDate
  | none => currentDate

/-- The per-record serialization transform: renames, BS 총계 rewrite, derived
columns, period bucketing, crawl time. -/
def saveRow (nameMap : List (String × String)) (receipt crawl : String) (r : Row) : OutRow :=
  let an := totalRename r.report_type r.label_ko
  let c1 := totalRename r.report_type r.class1
  { order_no := r.order_no
    yyyy := r.yyyy
    month := r.month
    corp_code := r.corp_code
    corp_name := r.corp_name
    report_type := r.report_type
    account_id := r.concept_id
    account_name := an
    account_name_en := r.label_en
    class0 := r.class0
    class1 := c1
    class2 := r.class2
    class3 := r.class3
    fs_type := r.fs_type
    period := rewritePeriod r.report_type r.period
    amount := r.amount
    report_name := reportName r.report_type
    receipt_ymd := receipt
    class1_id := classId nameMap c1
    class2_id := classId nameMap r.class2
    class3_id := classId nameMap r.class3
    crawl_time := crawl }

/-- The serializer `save_to_parquet`: `none` models the `False` return on an empty record
set; otherwise the serialized records, one per input record. -/
def save_to_parquet (rs : List Row) (receipt_ymd : Option String)
    (xbrl_file_path : Option String) (mp : List (String × String))
    (currentDate currentTime : String) : Option (List OutRow) :=
  if rs.isEmpty then none
  else
    let resolved := resolve_receipt receipt_ymd xbrl_file_path mp currentDate
    let nameMap := buildNameToId rs
    some (rs.map (saveRow nameMap resolved currentTime))

/-! ## Entity-name resolution (`extract_metadata_from_xbrl`, name lookup) -/

/-- The corp-name resolution of the metadata extractor: exact lookup in the
loaded directory, one retry against the reloaded directory, then a
leading-zero-stripped key comparison, then the `Corp_` placeholder.  `m0` is
the directory as first loaded and `m1` the directory after the reload. -/
def resolve_corp_name (m0 m1 : List (String × String)) (corp_code : String) : String :=
  match (m0.find? (fun p => p.1 = corp_code)).map (fun p => p.2) with
  | some n => n
  | none =>
      match (m1.find? (fun p => p.1 = corp_code)).map (fun p => p.2) with
      | some n => n
      | none =>
          match m1.find? (fun p => strip0 p.1 = strip0 corp_code) with
          | some p => p.2
          | none => "Corp_" ++ corp_code

/-! ## Entry points (`process_xbrl_file`, `process_xbrl_file_with_report_info`) -/

/-- The observable state of one filing for the entry points: whether the path
exists on disk, and the matrices and metadata the (exception-safe) extraction
would produce for it. -/
structure XbrlSource where
  pathExists : Bool
  filename : String
  bs : DataFrame
  cis : DataFrame
  md : Metadata
deriving Repr

/-- The extractor `extract_financial_data`: on a missing file the library call raises, the
handler returns empty frames and metadata. -/
def extract_financial_data (src : XbrlSource) : DataFrame × DataFrame × Metadata :=
  if src.pathExists then (src.bs, src.cis, src.md)
  else (⟨[], []⟩, ⟨[], []⟩, {})

/-- Comparison used by the report-type-then-ordinal sort before saving. -/
def rowLeRt (a b : Row) : Bool :=
  decide (a.report_type < b.report_type)
    || (a.report_type == b.report_type && decide (a.order_no ≤ b.order_no))

/-- Filename builder `generate_output_filename`: the CSV name from the report
title when it carries a period marker, else
`FS_{corp}_{yyyy}{month}.parquet` from the metadata. -/
def generate_output_filename (md : Metadata) (report_nm : String) : String :=
  let p := extract_period_from_report_name report_nm
  if p ≠ "" then "FS_" ++ md.corp_code ++ "_" ++ p ++ ".csv"
  else "FS_" ++ md.corp_code ++ "_" ++ md.yyyy ++ md.month ++ ".parquet"

/-- The shared pivot/normalize/save pipeline of both entry points. -/
def processPipeline (src : XbrlSource) (report_nm : String)
    (receipt_ymd : Option String) (mp : List (String × String))
    (currentDate currentTime : String) : List String :=
  let e := extract_financial_data src
  let md := if report_nm ≠ "" then { e.2.2 with report_nm := some report_nm } else e.2.2
  let bsPart :=
    if ¬ e.1.rows.isEmpty then
      let p := convert_to_pivot_format e.1 { md with report_type := "BS" }
      if ¬ p.isEmpty then [p] else []
    else []
  let cisPart :=
    if ¬ e.2.1.rows.isEmpty then
      let p := convert_to_pivot_format e.2.1 { md with report_type := "CIS" }
      if ¬ p.isEmpty then [p] else []
    else []
  let allData := bsPart ++ cisPart
  if ¬ allData.isEmpty then
    let combined := allData.flatten
    let combined := improve_hierarchy_structure combined
    let combined := combined.mergeSort rowLeRt
    let output_file := generate_output_filename md report_nm
    match save_to_parquet combined receipt_ymd (some src.filename) mp currentDate currentTime with
    | some _ => [output_file]
    | none => []
  else []

/-- Processing errors that can cross the public boundary. -/
inductive ProcError where
  | fileNotFound : ProcError
deriving DecidableEq, Repr

/-- Entry point `process_xbrl_file`: raises `FileNotFoundError` when the path does not
exist, otherwise runs the pipeline (whose own failures are handled inside)
and returns the generated file list.  `report_nm` is never set and the
receipt date is never passed on this path. -/
def process_xbrl_file (src : XbrlSource) (mp : List (String × String))
    (currentDate currentTime : String) : Except ProcError (List String) :=
  if ¬ src.pathExists then Except.error ProcError.fileNotFound
  else Except.ok (processPipeline src "" none mp currentDate currentTime)

/-- The try-block body of `process_xbrl_file_with_report_info`: early return
on a fully empty extraction, else the shared pipeline. -/
def processBodyWithReportInfo (src : XbrlSource) (report_nm : String)
    (receipt_ymd : Option String) (mp : List (String × String))
    (currentDate currentTime : String) : Except ProcError (List String) :=
  if (extract_financial_data src).1.rows.isEmpty
      ∧ (extract_financial_data src).2.1.rows.isEmpty then Except.ok []
  else Except.ok (processPipeline src report_nm receipt_ymd mp currentDate currentTime)

/-- The `register_xbrl_rcept_dt` call at the top of
`process_xbrl_file_with_report_info`: record the receipt date under the
file's name when the date is truthy and not a null marker. -/
def registerMapping (src : XbrlSource) (receipt_ymd : Option String)
    (mp : List (String × String)) : List (String × String) :=
  match receipt_ymd with
  | some s => if s ≠ "" ∧ s ≠ "None" ∧ s ≠ "null" then
      dictInsert mp (pathName src.filename) s
    else mp
  | none => mp

/-- Entry point `process_xbrl_file_with_report_info`: registers the receipt date in the
filename mapping when it is provided, then runs the body inside a catch-all
handler that turns any error into the (empty) generated-file list. -/
def process_xbrl_file_with_report_info (src : XbrlSource) (report_nm : String)
    (receipt_ymd : Option String) (mp : List (String × String))
    (currentDate currentTime : String) : Except ProcError (List String) :=
  match processBodyWithReportInfo src report_nm receipt_ymd
      (registerMapping src receipt_ymd mp) currentDate currentTime with
  | Except.ok l => Except.ok l
  | Except.error _ => Except.ok []

/-- Concrete pivot input for the C1 witness. -/
def dfW1 : DataFrame :=
  ⟨[Col.pair "20250630" (ColSnd.tup ["연결재무제표"])], [[Cell.num 5]]⟩

/-- The record the C1 witness input produces. -/
def rW1 : Row :=
  { order_no := 1, yyyy := "", month := "", corp_code := "00000000", corp_name := "",
    report_type := "UNKNOWN", concept_id := "", label_ko := "", label_en := "",
    class0 := "", class1 := "", class2 := "", class3 := "", fs_type := "연결",
    period := "2025-06-30", amount := 5 }

/-- Concrete column list for the C4 witness. -/
def colsW4 : List Col :=
  [Col.pair "a" (ColSnd.str "class1"), Col.pair "20250630" (ColSnd.tup ["연결재무제표"])]

/-- C2 counterexample input: a filing whose path does not exist. -/
def srcMissing : XbrlSource := ⟨false, "missing.xbrl", ⟨[], []⟩, ⟨[], []⟩, {}⟩

/-- Concrete input for the C2 witness: an existing (but empty) filing. -/
def srcOkW : XbrlSource := ⟨true, "f.xbrl", ⟨[], []⟩, ⟨[], []⟩, {}⟩

/-- Concrete record for the C10 witness. -/
def rW10 : Row :=
  { order_no := 3, yyyy := "2025", month := "06", corp_code := "00171636", corp_name := "한솔",
    report_type := "BS", concept_id := "ifrs_Assets", label_ko := "자산총계", label_en := "Assets",
    class0 := "재무상태표", class1 := "자산총계", class2 := "", class3 := "", fs_type := "연결",
    period := "2025-06-30", amount := 100 }

/-- The serialized record the C10 witness input produces. -/
def oW10 : OutRow :=
  { order_no := 3, yyyy := "2025", month := "06", corp_code := "00171636", corp_name := "한솔",
    report_type := "BS", account_id := "ifrs_Assets", account_name := "자산",
    account_name_en := "Assets", class0 := "재무상태표", class1 := "자산", class2 := "",
    class3 := "", fs_type := "연결", period := "당기", amount := 100,
    report_name := "재무상태표", receipt_ymd := "2099-12-31", class1_id := "ifrs_Assets",
    class2_id := "", class3_id := "", crawl_time := "T" }

/-- C8 counterexample: a CIS record whose period contains two `~` separators
is serialized with its period left unchanged — not rewritten to any coarse
bucket. -/
def rCex8 : Row :=
  { order_no := 1, yyyy := "2025", month := "06", corp_code := "00000001", corp_name := "",
    report_type := "CIS", concept_id := "c", label_ko := "매출", label_en := "",
    class0 := "", class1 := "", class2 := "", class3 := "", fs_type := "연결",
    period := "1~2~3", amount := 1 }

/-- Concrete record for the C8 witness: a six-month income-statement range. -/
def rW8 : Row :=
  { order_no := 2, yyyy := "2025", month := "06", corp_code := "00000001", corp_name := "",
    report_type := "CIS", concept_id := "rev", label_ko := "매출액", label_en := "",
    class0 := "", class1 := "", class2 := "", class3 := "", fs_type := "연결",
    period := "2025-01-01 ~ 2025-06-30", amount := 12345 }

/-- The serialized record the C8 witness input produces. -/
def oW8 : OutRow :=
  { order_no := 2, yyyy := "2025", month := "06", corp_code := "00000001", corp_name := "",
    report_type := "CIS", account_id := "rev", account_name := "매출액",
    account_name_en := "", class0 := "", class1 := "", class2 := "", class3 := "",
    fs_type := "연결", period := "누적", amount := 12345, report_name := "포괄손익계산서",
    receipt_ymd := "2099-01-01", class1_id := "", class2_id := "", class3_id := "",
    crawl_time := "T" }

/-- The combined elementwise effect of steps 1–3a of the normalizer. -/
def normStep (r : Row) : Row :=
  setOrderIf "자산총계" 0 (clearDupClass2 "자본총계" (clearDupClass2 "부채총계"
    (clearDupClass2 "자산총계" (relabelOverview "자본 [개요]" "자본총계"
      (relabelOverview "부채 [개요]" "부채총계"
        (relabelOverview "자산 [개요]" "자산총계" r))))))

/-- The `class1` relabelling of step 1, as a string function. -/
def relabel1 (rt c : String) : String :=
  if rt = "BS" then
    if c = "자산 [개요]" then "자산총계"
    else if c = "부채 [개요]" then "부채총계"
    else if c = "자본 [개요]" then "자본총계"
    else c
  else c

/-- The state every record is in after one pass of the normalizer's
relabel/clear/asset-ordinal steps: no overview `class1` remains, no
self-referential 총계 `class2` remains, and asset-total rows carry ordinal
zero. -/
def Norm (r : Row) : Prop :=
  r.report_type = "BS" →
    (r.class1 ≠ "자산 [개요]" ∧ r.class1 ≠ "부채 [개요]" ∧ r.class1 ≠ "자본 [개요]"
     ∧ ¬(r.class1 = "자산총계" ∧ r.class2 = "자산총계")
     ∧ ¬(r.class1 = "부채총계" ∧ r.class2 = "부채총계")
     ∧ ¬(r.class1 = "자본총계" ∧ r.class2 = "자본총계")
     ∧ ((r.class1 = "자산총계" ∧ r.class2 = "") → r.order_no = 0))

/-! ## C5: the assets-overview row under normalization -/

/-- C5 counterexample row: `class1` and `class2` both carry the overview
label, as the claim posits. -/
def rCex5 : Row :=
  { order_no := 7, yyyy := "2025", month := "06", corp_code := "00000001", corp_name := "",
    report_type := "BS", concept_id := "ifrs_Assets", label_ko := "자산총계", label_en := "",
    class0 := "재무상태표", class1 := "자산 [개요]", class2 := "자산 [개요]", class3 := "",
    fs_type := "연결", period := "당기", amount := 1 }

/-- Concrete record for the C5 witness. -/
def rW5 : Row :=
  { order_no := 4, yyyy := "2025", month := "06", corp_code := "00000001", corp_name := "",
    report_type := "BS", concept_id := "ifrs_Assets", label_ko := "자산총계", label_en := "",
    class0 := "재무상태표", class1 := "자산 [개요]", class2 := "자산총계", class3 := "",
    fs_type := "연결", period := "당기", amount := 10 }

/-! ## C6: ordinal of the assets-total row after normalization -/

/-- Two identical asset-total rows differing only in ordinal, e.g. the same
concept under two scopes. -/
def rCex6a : Row :=
  { order_no := 1, yyyy := "2025", month := "06", corp_code := "00000001", corp_name := "",
    report_type := "BS", concept_id := "ifrs_Assets", label_ko := "자산총계", label_en := "",
    class0 := "재무상태표", class1 := "자산총계", class2 := "자산총계", class3 := "",
    fs_type := "연결", period := "당기", amount := 5 }

/-- Companion row to `rCex6a` with a different ordinal and scope. -/
def rCex6b : Row :=
  { rCex6a with order_no := 2, fs_type := "별도" }

/-! ## C7: idempotence of the hierarchy normalizer -/

/-- C7 counterexample set: a combined-total row that is also the least-ordinal
child of the liabilities section, so its removal changes the minimum used by
a second pass. -/
def rsCex7 : List Row :=
  [{ order_no := 5, yyyy := "", month := "", corp_code := "", corp_name := "",
     report_type := "BS", concept_id := "a", label_ko := "자본과부채총계", label_en := "",
     class0 := "", class1 := "부채총계", class2 := "유동부채", class3 := "",
     fs_type := "연결", period := "당기", amount := 1 },
   { order_no := 9, yyyy := "", month := "", corp_code := "", corp_name := "",
     report_type := "BS", concept_id := "b", label_ko := "유동부채", label_en := "",
     class0 := "", class1 := "부채총계", class2 := "유동부채", class3 := "",
     fs_type := "연결", period := "당기", amount := 2 },
   { order_no := 7, yyyy := "", month := "", corp_code := "", corp_name := "",
     report_type := "BS", concept_id := "c", label_ko := "부채총계", label_en := "",
     class0 := "", class1 := "부채총계", class2 := "", class3 := "",
     fs_type := "연결", period := "당기", amount := 3 }]

/-- Pipeline stage: after the elementwise relabel/clear/asset-ordinal pass. -/
def stageZ (rs : List Row) : List Row := rs.map normStep

/-- Pipeline stage: after the liabilities-total ordinal reassignment. -/
def stageLD (rs : List Row) : List Row := reassignTotal "부채총계" (stageZ rs)

/-- Pipeline stage: after the equity-total ordinal reassignment. -/
def stageW (rs : List Row) : List Row := reassignTotal "자본총계" (stageLD rs)

/-- Pipeline stage: after removal of the combined-total rows — the full
normalizer. -/
def stageY (rs : List Row) : List Row := (stageW rs).filter keepRow

/-- The side condition the amended C7 needs: no removed combined-total row
belongs to the liabilities or equity section. -/
def NoSectionCombined (rs : List Row) : Prop :=
  ∀ r ∈ rs, r.report_type = "BS" → r.label_ko = "자본과부채총계" →
    r.class1 ≠ "부채총계" ∧ r.class1 ≠ "부채 [개요]"
    ∧ r.class1 ≠ "자본총계" ∧ r.class1 ≠ "자본 [개요]"

/-- Concrete record set for the C7 witness: a small statement of position
whose combined-total row sits outside the liabilities/equity sections. -/
def rsW7 : List Row :=
  [{ order_no := 1, yyyy := "", month := "", corp_code := "", corp_name := "",
     report_type := "BS", concept_id := "a", label_ko := "자산총계", label_en := "",
     class0 := "", class1 := "자산 [개요]", class2 := "자산총계", class3 := "",
     fs_type := "연결", period := "당기", amount := 10 },
   { order_no := 2, yyyy := "", month := "", corp_code := "", corp_name := "",
     report_type := "BS", concept_id := "b", label_ko := "유동부채", label_en := "",
     class0 := "", class1 := "부채총계", class2 := "유동부채", class3 := "",
     fs_type := "연결", period := "당기", amount := 4 },
   { order_no := 3, yyyy := "", month := "", corp_code := "", corp_name := "",
     report_type := "BS", concept_id := "c", label_ko := "부채총계", label_en := "",
     class0 := "", class1 := "부채총계", class2 := "", class3 := "",
     fs_type := "연결", period := "당기", amount := 4 },
   { order_no := 4, yyyy := "", month := "", corp_code := "", corp_name := "",
     report_type := "BS", concept_id := "d", label_ko := "자본과부채총계", label_en := "",
     class0 := "", class1 := "자본과부채 [개요]", class2 := "", class3 := "",
     fs_type := "연결", period := "당기", amount := 10 }]

/-- Concrete metadata and records for the C3 witness: the report title names
2025-06, so only the 2025-06-30 record survives. -/
def mdW3 : Metadata :=
  { yyyy := "2024", month := "12", corp_code := "00000001", corp_name := "",
    report_type := "BS", report_nm := some "반기보고서 (2025.06)" }

/-- Records for the C3 witness: a current-period row and a comparative row. -/
def rsW3 : List Row :=
  [{ rW1 with period := "2025-06-30" }, { rW1 with period := "2024-06-30", amount := 7 }]

/-! ## Generic list lemmas -/

theorem map_id_on {α : Type} (l : List α) (f : α → α) (h : ∀ a ∈ l, f a = a) :
    l.map f = l := by
  induction l with
  | nil => rfl
  | cons a t ih =>
      simp only [List.map_cons, h a (List.mem_cons_self a t)]
      exact congrArg _ (ih (fun b hb => h b (List.mem_cons_of_mem a hb)))

theorem filter_map_of_inv {α : Type} (p : α → Bool) (f : α → α)
    (hp : ∀ a, p (f a) = p a) (hid : ∀ a, p a = true → f a = a) (l : List α) :
    (l.map f).filter p = l.filter p := by
  induction l with
  | nil => rfl
  | cons a t ih =>
      simp only [List.map_cons, List.filter_cons, hp a]
      by_cases h : p a = true
      · simp [h, hid a h, ih]
      · simp [h, ih]

/-! ## C1: the pivot emits only nonzero numeric amounts -/

theorem pivotCell_amount_ne_zero (base : Row) (cols : List Col) (cells : List Cell)
    (col : Col) (r : Row) (h : r ∈ pivotCell base cols cells col) : r.amount ≠ 0 := by
  unfold pivotCell at h
  split at h
  · exact absurd h (List.not_mem_nil r)
  · split at h
    · rename_i q hq
      split at h
      · split at h
        · rw [List.mem_singleton] at h
          subst h; exact hq
        · exact absurd h (List.not_mem_nil r)
      · split at h
        · exact absurd h (List.not_mem_nil r)
        · rw [List.mem_singleton] at h
          subst h; exact hq
    · exact absurd h (List.not_mem_nil r)

theorem mem_of_mem_applyPeriodFilter (md : Metadata) (rs : List Row) (r : Row)
    (h : r ∈ applyPeriodFilter md rs) : r ∈ rs := by
  unfold applyPeriodFilter at h
  by_cases he : rs.isEmpty
  · simpa [he] using h
  · simp only [he, if_false] at h
    cases ht : reportPeriodYyyymm md with
    | some p => rw [ht] at h; exact (List.mem_filter.mp h).1
    | none => rw [ht] at h; exact h

/-- C1: every record emitted by the pivot transformation carries a nonzero
numeric amount — a record is only appended under the successful-coercion,
nonzero guard, so no null, non-numeric or zero amount ever reaches the
output. -/
theorem claim_C1 (df : DataFrame) (md : Metadata) (r : Row)
    (h : r ∈ convert_to_pivot_format df md) : r.amount ≠ 0 := by
  unfold convert_to_pivot_format at h
  by_cases he : df.rows.isEmpty
  · simp [he] at h
  · simp only [he, if_false] at h
    have h2 : r ∈ applyPeriodFilter md (pivotRows df md) :=
      ((List.mergeSort_perm _ rowLe).mem_iff).mp h
    have h3 : r ∈ pivotRows df md := mem_of_mem_applyPeriodFilter _ _ _ h2
    unfold pivotRows at h3
    rw [List.mem_flatMap] at h3
    obtain ⟨p, _, hp⟩ := h3
    rw [List.mem_flatMap] at hp
    obtain ⟨col, _, hc⟩ := hp
    exact pivotCell_amount_ne_zero _ _ _ _ _ hc

theorem claim_C1_witness : rW1 ∈ convert_to_pivot_format dfW1 {} ∧ rW1.amount ≠ 0 := by
  have hmem : rW1 ∈ convert_to_pivot_format dfW1 {} := by
    unfold convert_to_pivot_format
    rw [if_neg (by decide)]
    rw [List.mem_mergeSort]
    decide
  exact ⟨hmem, claim_C1 dfW1 {} rW1 hmem⟩

/-! ## C4: totality of the structural analyzer's column classification -/

theorem analyze_aux_data (cols : List Col) : ∀ (ci : ColumnsInfo) (acc : List Col),
    (cols.foldl analyzeStep (ci, acc)).2 = acc ++ cols.filter isDataCol := by
  induction cols with
  | nil => intro ci acc; simp
  | cons c t ih =>
      intro ci acc
      rw [List.foldl_cons, List.filter_cons]
      cases c with
      | pair f snd =>
          cases snd with
          | str ct =>
              by_cases h : ct ∈ fixedFieldNames
              · simp only [analyzeStep, h, if_true]
                rw [ih]
                simp [isDataCol, h]
              · simp only [analyzeStep, h, if_false]
                rw [ih]
                simp [isDataCol, h]
          | tup ss =>
              simp only [analyzeStep]
              rw [ih]
              simp [isDataCol]
      | str s =>
          by_cases h1 : s ∈ injectedMetaNames
          · simp only [analyzeStep, h1, if_true]
            rw [ih]
            simp [isDataCol, h1]
          · by_cases h2 : s ∈ fixedFieldNames
            · simp only [analyzeStep, h1, h2, if_true, if_false]
              rw [ih]
              simp [isDataCol, h1, h2]
            · simp only [analyzeStep, h1, h2, if_false]
              rw [ih]
              simp [isDataCol, h1, h2]

theorem mem_infoVals_setInfo (ci : ColumnsInfo) (n : String) (c c2 : Col)
    (h : c2 ∈ infoVals (setInfo ci n c)) : c2 = c ∨ c2 ∈ infoVals ci := by
  unfold infoVals setInfo at h
  rw [List.map_cons, List.mem_cons] at h
  cases h with
  | inl h => exact Or.inl h
  | inr h =>
      right
      unfold infoVals
      rw [List.mem_map] at h ⊢
      obtain ⟨p, hp, he⟩ := h
      exact ⟨p, (List.mem_filter.mp hp).1, he⟩

theorem analyzeStep_fst (acc : ColumnsInfo × List Col) (c0 : Col) :
    ((analyzeStep acc c0).1 = acc.1 ∧ fixedNameOf c0 = none) ∨
    ∃ n, fixedNameOf c0 = some n ∧ (analyzeStep acc c0).1 = setInfo acc.1 n c0 := by
  cases c0 with
  | pair f snd =>
      cases snd with
      | str ct =>
          by_cases hh : ct ∈ fixedFieldNames
          · exact Or.inr ⟨ct, by simp [fixedNameOf, hh], by simp [analyzeStep, hh]⟩
          · exact Or.inl ⟨by simp [analyzeStep, hh], by simp [fixedNameOf, hh]⟩
      | tup ss => exact Or.inl ⟨rfl, rfl⟩
  | str s =>
      by_cases h1 : s ∈ injectedMetaNames
      · exact Or.inl ⟨by simp [analyzeStep, h1], by simp [fixedNameOf, h1]⟩
      · by_cases h2 : s ∈ fixedFieldNames
        · exact Or.inr ⟨s, by simp [fixedNameOf, h1, h2], by simp [analyzeStep, h1, h2]⟩
        · exact Or.inl ⟨by simp [analyzeStep, h1, h2], by simp [fixedNameOf, h1, h2]⟩

theorem analyze_aux_infoVals (cols : List Col) : ∀ (ci : ColumnsInfo) (acc : List Col)
    (c : Col), c ∈ infoVals (cols.foldl analyzeStep (ci, acc)).1 →
    c ∈ infoVals ci ∨ (c ∈ cols ∧ (fixedNameOf c).isSome = true) := by
  induction cols with
  | nil => intro ci acc c h; exact Or.inl h
  | cons c0 t ih =>
      intro ci acc c h
      rw [List.foldl_cons] at h
      rcases ih (analyzeStep (ci, acc) c0).1 (analyzeStep (ci, acc) c0).2 c h with h2 | h2
      · rcases analyzeStep_fst (ci, acc) c0 with ⟨hs, _⟩ | ⟨n, hn, hs⟩
        · rw [hs] at h2; exact Or.inl h2
        · rw [hs] at h2
          rcases mem_infoVals_setInfo _ _ _ _ h2 with h3 | h3
          · subst h3
            exact Or.inr ⟨List.mem_cons_self _ _, by rw [hn]; rfl⟩
          · exact Or.inl h3
      · exact Or.inr ⟨List.mem_cons_of_mem _ h2.1, h2.2⟩

theorem hasKey_setInfo_self (ci : ColumnsInfo) (n : String) (c : Col) :
    hasKey (setInfo ci n c) n = true := by
  simp [hasKey, setInfo, List.find?_cons]

theorem hasKey_setInfo_mono (ci : ColumnsInfo) (n2 : String) (c : Col) (n : String)
    (h : hasKey ci n = true) : hasKey (setInfo ci n2 c) n = true := by
  by_cases he : n2 = n
  · subst he; exact hasKey_setInfo_self ci n2 c
  · simp only [hasKey, setInfo] at h ⊢
    rw [List.find?_isSome] at h ⊢
    obtain ⟨p, hp, hpp⟩ := h
    refine ⟨p, List.mem_cons_of_mem _ (List.mem_filter.mpr ⟨hp, ?_⟩), hpp⟩
    have hp1 : p.1 = n := by simpa using hpp
    simp [hp1]
    exact fun he2 => he he2.symm

theorem analyzeStep_hasKey (acc : ColumnsInfo × List Col) (c0 : Col) (n : String)
    (h : hasKey acc.1 n = true) : hasKey (analyzeStep acc c0).1 n = true := by
  rcases analyzeStep_fst acc c0 with ⟨hs, _⟩ | ⟨m, _, hs⟩
  · rw [hs]; exact h
  · rw [hs]; exact hasKey_setInfo_mono _ _ _ _ h

theorem analyze_aux_hasKey_mono (cols : List Col) :
    ∀ (st : ColumnsInfo × List Col) (n : String), hasKey st.1 n = true →
    hasKey (cols.foldl analyzeStep st).1 n = true := by
  induction cols with
  | nil => intro st n h; exact h
  | cons c0 t ih =>
      intro st n h
      rw [List.foldl_cons]
      exact ih _ n (analyzeStep_hasKey st c0 n h)

theorem analyze_aux_hasKey (cols : List Col) : ∀ (ci : ColumnsInfo) (acc : List Col)
    (c : Col) (n : String), c ∈ cols → fixedNameOf c = some n →
    hasKey (cols.foldl analyzeStep (ci, acc)).1 n = true := by
  induction cols with
  | nil => intro _ _ _ _ h _; exact absurd h (List.not_mem_nil _)
  | cons c0 t ih =>
      intro ci acc c n hc hn
      rw [List.foldl_cons]
      rcases List.mem_cons.mp hc with he | hm
      · subst he
        refine analyze_aux_hasKey_mono t _ n ?_
        rcases analyzeStep_fst (ci, acc) c with ⟨_, hnone⟩ | ⟨m, hm2, hs⟩
        · rw [hnone] at hn; exact absurd hn (by simp)
        · rw [hm2] at hn
          injection hn with hn
          subst hn
          rw [hs]
          exact hasKey_setInfo_self _ _ _
      · exact ih _ _ c n hm hn

theorem skipped_not_fixed (c : Col) (h : isSkippedCol c = true) : fixedNameOf c = none := by
  cases c with
  | str s =>
      have hs : s ∈ injectedMetaNames := by simpa [isSkippedCol] using h
      simp [fixedNameOf, hs]
  | pair f snd => simp [isSkippedCol] at h

theorem skipped_not_data (c : Col) (h : isSkippedCol c = true) : isDataCol c = false := by
  cases c with
  | str s =>
      have hs : s ∈ injectedMetaNames := by simpa [isSkippedCol] using h
      simp [isDataCol, hs]
  | pair f snd => simp [isSkippedCol] at h

theorem data_not_fixed (c : Col) (h : isDataCol c = true) : fixedNameOf c = none := by
  cases c with
  | str s =>
      simp only [isDataCol, Bool.and_eq_true, decide_eq_true_eq] at h
      simp [fixedNameOf, h.1, h.2]
  | pair f snd =>
      cases snd with
      | str ct =>
          simp only [isDataCol, decide_eq_true_eq] at h
          simp [fixedNameOf, h]
      | tup ss => rfl

/-- C4 counterexample: a bare `"yyyy"` column is assigned to neither bucket —
it appears among neither the matched fixed columns nor the data columns. -/
theorem claim_C4_cex :
    (Col.str "yyyy") ∈ [Col.str "yyyy"]
    ∧ (Col.str "yyyy") ∉ infoVals (analyze_dataframe_structure [Col.str "yyyy"]).1
    ∧ (Col.str "yyyy") ∉ (analyze_dataframe_structure [Col.str "yyyy"]).2 := by
  decide

/-- C4 (amended): the classification is total except for the five injected
metadata names and shadowed fixed matches — every 2-tuple column and every
bare string column outside the injected metadata names lands in the data
bucket exactly when its field-name component is not one of the eight fixed
names, a data column never appears among the fixed matches, every
fixed-matching column fills its field's slot, and a bare injected-metadata
string column is left out of both buckets. -/
theorem claim_C4 (cols : List Col) (c : Col) (hc : c ∈ cols) :
    (isSkippedCol c = true →
        c ∉ infoVals (analyze_dataframe_structure cols).1
        ∧ c ∉ (analyze_dataframe_structure cols).2)
    ∧ (isSkippedCol c = false →
        (c ∈ (analyze_dataframe_structure cols).2 ↔ isDataCol c = true))
    ∧ (isDataCol c = true → c ∉ infoVals (analyze_dataframe_structure cols).1)
    ∧ (∀ n, fixedNameOf c = some n →
        hasKey (analyze_dataframe_structure cols).1 n = true) := by
  have hdata : (analyze_dataframe_structure cols).2 = cols.filter isDataCol := by
    have h := analyze_aux_data cols [] []
    simpa [analyze_dataframe_structure] using h
  refine ⟨?_, ?_, ?_, ?_⟩
  · intro hsk
    constructor
    · intro hmem
      rcases analyze_aux_infoVals cols [] [] c hmem with h | h
      · simp [infoVals] at h
      · rw [skipped_not_fixed c hsk] at h
        simp at h
    · rw [hdata]
      intro hmem
      have h2 := (List.mem_filter.mp hmem).2
      rw [skipped_not_data c hsk] at h2
      exact absurd h2 (by simp)
  · intro _
    rw [hdata]
    constructor
    · intro hmem; exact (List.mem_filter.mp hmem).2
    · intro hd; exact List.mem_filter.mpr ⟨hc, hd⟩
  · intro hd hmem
    rcases analyze_aux_infoVals cols [] [] c hmem with h | h
    · simp [infoVals] at h
    · rw [data_not_fixed c hd] at h
      simp at h
  · intro n hn
    exact analyze_aux_hasKey cols [] [] c n hc hn

theorem claim_C4_witness :
    (Col.pair "20250630" (ColSnd.tup ["연결재무제표"])) ∈ (analyze_dataframe_structure colsW4).2
    ∧ hasKey (analyze_dataframe_structure colsW4).1 "class1" = true :=
  ⟨((claim_C4 colsW4 (Col.pair "20250630" (ColSnd.tup ["연결재무제표"])) (by decide)).2.1
      (by decide)).mpr (by decide),
   (claim_C4 colsW4 (Col.pair "a" (ColSnd.str "class1")) (by decide)).2.2.2 "class1" (by decide)⟩

/-! ## C2: behaviour of the public entry points -/

theorem processBody_ok (src : XbrlSource) (rnm : String) (rymd : Option String)
    (mp : List (String × String)) (cd ct : String) :
    ∃ l, processBodyWithReportInfo src rnm rymd mp cd ct = Except.ok l := by
  by_cases h : (extract_financial_data src).1.rows.isEmpty
      ∧ (extract_financial_data src).2.1.rows.isEmpty
  · exact ⟨[], by unfold processBodyWithReportInfo; rw [if_pos h]⟩
  · exact ⟨processPipeline src rnm rymd mp cd ct,
      by unfold processBodyWithReportInfo; rw [if_neg h]⟩

/-- C2 counterexample: on a nonexistent path, `process_xbrl_file` raises a
`FileNotFoundError` across the public boundary instead of returning a list. -/
theorem claim_C2_cex :
    process_xbrl_file srcMissing [] "2099-01-01" "t" = Except.error ProcError.fileNotFound := by
  rfl

/-- C2 (amended): `process_xbrl_file_with_report_info` always returns a
(possibly empty) generated-file list, and `process_xbrl_file` does so exactly
when the input path exists — on a missing path it raises `FileNotFoundError`
instead. -/
theorem claim_C2 (src : XbrlSource) (mp : List (String × String)) (cd ct : String)
    (rnm : String) (rymd : Option String) :
    (src.pathExists = true → ∃ l, process_xbrl_file src mp cd ct = Except.ok l)
    ∧ (src.pathExists = false →
        process_xbrl_file src mp cd ct = Except.error ProcError.fileNotFound)
    ∧ (∃ l, process_xbrl_file_with_report_info src rnm rymd mp cd ct = Except.ok l) := by
  refine ⟨?_, ?_, ?_⟩
  · intro h
    refine ⟨processPipeline src "" none mp cd ct, ?_⟩
    unfold process_xbrl_file
    rw [h]
    simp
  · intro h
    unfold process_xbrl_file
    rw [h]
    simp
  · obtain ⟨l, hl⟩ := processBody_ok src rnm rymd (registerMapping src rymd mp) cd ct
    refine ⟨l, ?_⟩
    unfold process_xbrl_file_with_report_info
    rw [hl]

theorem claim_C2_witness :
    (process_xbrl_file srcOkW [] "2099-01-01" "t").isOk = true
    ∧ (process_xbrl_file_with_report_info srcOkW "" none [] "2099-01-01" "t").isOk = true := by
  constructor
  · obtain ⟨l, hl⟩ := (claim_C2 srcOkW [] "2099-01-01" "t" "" none).1 rfl
    rw [hl]; rfl
  · obtain ⟨l, hl⟩ := (claim_C2 srcOkW [] "2099-01-01" "t" "" none).2.2
    rw [hl]; rfl

/-! ## C9: entity-name resolution -/

/-- C9 counterexample: with the code absent from the reloaded directory but a
leading-zero-stripped key matching, the resolved name is the directory value,
not the `Corp_` placeholder. -/
theorem claim_C9_cex :
    (([] : List (String × String)).find? (fun q => q.1 = "00171636") = none)
    ∧ (([("171636", "한솔")] : List (String × String)).find? (fun q => q.1 = "00171636") = none)
    ∧ resolve_corp_name [] [("171636", "한솔")] "00171636" = "한솔"
    ∧ "한솔" ≠ "Corp_00171636" := by
  decide

/-- C9 (amended): entity-name resolution never fails — the loaded directory
is consulted, then once more after the reload, then a leading-zero-stripped
key comparison over the reloaded directory, and only when all three miss is
the deterministic `Corp_{entity_code}` placeholder used. -/
theorem claim_C9 (m0 m1 : List (String × String)) (code : String) :
    (∀ p, m0.find? (fun q => q.1 = code) = some p → resolve_corp_name m0 m1 code = p.2)
    ∧ (m0.find? (fun q => q.1 = code) = none →
        ∀ p, m1.find? (fun q => q.1 = code) = some p → resolve_corp_name m0 m1 code = p.2)
    ∧ (m0.find? (fun q => q.1 = code) = none → m1.find? (fun q => q.1 = code) = none →
        ∀ p, m1.find? (fun q => strip0 q.1 = strip0 code) = some p →
          resolve_corp_name m0 m1 code = p.2)
    ∧ (m0.find? (fun q => q.1 = code) = none → m1.find? (fun q => q.1 = code) = none →
        m1.find? (fun q => strip0 q.1 = strip0 code) = none →
        resolve_corp_name m0 m1 code = "Corp_" ++ code) := by
  refine ⟨?_, ?_, ?_, ?_⟩
  · intro p hp; simp [resolve_corp_name, hp]
  · intro h0 p hp; simp [resolve_corp_name, h0, hp]
  · intro h0 h1 p hp; simp [resolve_corp_name, h0, h1, hp]
  · intro h0 h1 h2; simp [resolve_corp_name, h0, h1, h2]

theorem claim_C9_witness :
    resolve_corp_name [("00000001", "가나")] [] "00000001" = "가나" :=
  (claim_C9 [("00000001", "가나")] [] "00000001").1 ("00000001", "가나") (by decide)

/-! ## C10: receipt-date fallback to the serialization day -/

theorem resolve_receipt_default (rymd path : Option String)
    (mp : List (String × String)) (cd : String)
    (h1 : ∀ s, rymd = some s → valid8 s = false)
    (h2 : ∀ p, path = some p → valid8 (get_rcept_dt mp p) = false) :
    resolve_receipt rymd path mp cd = cd := by
  unfold resolve_receipt
  cases rymd with
  | none =>
      cases path with
      | none => simp
      | some p =>
          have hm := h2 p rfl
          by_cases hmm : get_rcept_dt mp p = ""
          · simp [hmm]
          · simp [hmm, hm]
  | some s =>
      have hv := h1 s rfl
      cases path with
      | none => simp [hv]
      | some p =>
          have hm := h2 p rfl
          by_cases hmm : get_rcept_dt mp p = ""
          · simp [hv, hmm]
          · by_cases hcond : s = "" ∨ (s = "None" ∨ s = "null") ∨ s = ""
            · simp [hv, hmm, hm, hcond]
            · simp [hv, hmm, hm, hcond]

/-- C10: when neither the explicit receipt-date parameter nor the
filename→receipt-date mapping yields a valid 8-digit date, every serialized
record's `receipt_ymd` is the current date, and serialization still
succeeds. -/
theorem claim_C10 (rs : List Row) (rymd path : Option String)
    (mp : List (String × String)) (cd ct : String) (os : List OutRow)
    (h : save_to_parquet rs rymd path mp cd ct = some os)
    (h1 : ∀ s, rymd = some s → valid8 s = false)
    (h2 : ∀ p, path = some p → valid8 (get_rcept_dt mp p) = false) :
    ∀ o ∈ os, o.receipt_ymd = cd := by
  unfold save_to_parquet at h
  by_cases he : rs.isEmpty
  · rw [if_pos he] at h
    exact absurd h (by simp)
  · rw [if_neg he] at h
    injection h with h
    subst h
    intro o ho
    rw [List.mem_map] at ho
    obtain ⟨r, _, hr⟩ := ho
    subst hr
    show resolve_receipt rymd path mp cd = cd
    exact resolve_receipt_default rymd path mp cd h1 h2

theorem claim_C10_witness : oW10 ∈ [oW10] ∧ oW10.receipt_ymd = "2099-12-31" :=
  ⟨List.mem_singleton.mpr rfl,
   claim_C10 [rW10] (some "2025-06-30") (some "a/f.xbrl") [] "2099-12-31" "T" [oW10]
     (by decide)
     (by intro s hs; injection hs with hs; subst hs; decide)
     (by intro p hp; injection hp with hp; subst hp; decide)
     oW10 (List.mem_singleton.mpr rfl)⟩

/-! ## C8: period bucketing at serialization time -/

theorem zip_map_self {α β : Type} (l : List α) (f : α → β) :
    ∀ pr ∈ l.zip (l.map f), pr.2 = f pr.1 := by
  induction l with
  | nil => intro pr h; simp at h
  | cons a t ih =>
      intro pr h
      rw [List.map_cons, List.zip_cons_cons, List.mem_cons] at h
      rcases h with h | h
      · subst h; rfl
      · exact ih pr h

theorem claim_C8_cex :
    (save_to_parquet [rCex8] none none [] "2099-01-01" "T").map
        (fun l => l.map (fun o => o.period)) = some ["1~2~3"]
    ∧ "1~2~3" ≠ "3개월" ∧ "1~2~3" ≠ "누적" ∧ "1~2~3" ≠ "당기" := by
  decide

/-- C8 (amended): at serialization every statement-of-position record's
period becomes `당기`; an income-statement record's period becomes `3개월`
for a two-part `~` range spanning at most three calendar months, `누적` for a
longer range or a two-part range whose endpoints fail to parse, `3개월` for a
`~`-free string of exactly 10 characters containing `-`, `누적` for every
other `~`-free string, while a period containing `~` that does not split in
exactly two parts is left unchanged. -/
theorem claim_C8 (rs : List Row) (rymd path : Option String)
    (mp : List (String × String)) (cd ct : String) (os : List OutRow)
    (h : save_to_parquet rs rymd path mp cd ct = some os) :
    ∀ pr ∈ rs.zip os,
      (pr.1.report_type = "BS" → pr.2.period = "당기")
      ∧ (pr.1.report_type = "CIS" →
          (∀ s e, splitOnStr pr.1.period "~" = [s, e] →
            (∀ a b c d, parseYm (trimStr s) = some (a, b) → parseYm (trimStr e) = some (c, d) →
              pr.2.period = if (c - a) * 12 + (d - b) + 1 ≤ 3 then "3개월" else "누적")
            ∧ ((parseYm (trimStr s) = none ∨ parseYm (trimStr e) = none) →
                pr.2.period = "누적"))
          ∧ (containsSub pr.1.period "~" = true → (splitOnStr pr.1.period "~").length ≠ 2 →
              pr.2.period = pr.1.period)
          ∧ (containsSub pr.1.period "~" = false → pr.1.period.toList.length = 10 →
              containsSub pr.1.period "-" = true → pr.2.period = "3개월")
          ∧ (containsSub pr.1.period "~" = false →
              ¬(pr.1.period.toList.length = 10 ∧ containsSub pr.1.period "-" = true) →
              pr.2.period = "누적")) := by
  unfold save_to_parquet at h
  by_cases he : rs.isEmpty
  · rw [if_pos he] at h
    exact absurd h (by simp)
  · rw [if_neg he] at h
    injection h with h
    subst h
    intro pr hpr
    have hf := zip_map_self rs _ pr hpr
    have hper : pr.2.period = rewritePeriod pr.1.report_type pr.1.period := by
      rw [hf]; rfl
    constructor
    · intro hbs
      rw [hper, hbs]
      rfl
    · intro hcis
      rw [hper, hcis]
      have hcb : rewritePeriod "CIS" pr.1.period = cisBucket pr.1.period := rfl
      rw [hcb]
      refine ⟨?_, ?_, ?_, ?_⟩
      · intro s e hsp
        have hcont : containsSub pr.1.period "~" = true := by
          unfold containsSub
          rw [hsp]
          rfl
        constructor
        · intro a b c d hps hpe
          unfold cisBucket
          rw [if_pos hcont, hsp]
          dsimp only
          rw [hps, hpe]
        · intro hpn
          unfold cisBucket
          rw [if_pos hcont, hsp]
          dsimp only
          rcases hpn with hpn | hpn
          · rw [hpn]
          · rw [hpn]
            cases parseYm (trimStr s) <;> rfl
      · intro hcont hlen
        unfold cisBucket
        rw [if_pos hcont]
        rcases hspl : splitOnStr pr.1.period "~" with _ | ⟨s, t⟩
        · rfl
        · rcases t with _ | ⟨e, t2⟩
          · rfl
          · rcases t2 with _ | ⟨x, t3⟩
            · exact absurd (by rw [hspl]; rfl) hlen
            · rfl
      · intro hcont hlen hdash
        unfold cisBucket
        rw [if_neg (by rw [hcont]; exact Bool.false_ne_true)]
        rw [if_pos ⟨hlen, hdash⟩]
      · intro hcont hno
        unfold cisBucket
        rw [if_neg (by rw [hcont]; exact Bool.false_ne_true)]
        rw [if_neg hno]

theorem claim_C8_witness :
    save_to_parquet [rW8] none none [] "2099-01-01" "T" = some [oW8]
    ∧ (rW8, oW8) ∈ [rW8].zip [oW8]
    ∧ oW8.period = "누적" := by
  refine ⟨by decide, by decide, ?_⟩
  have h3 := ((claim_C8 [rW8] none none [] "2099-01-01" "T" [oW8] (by decide)
      (rW8, oW8) (by decide)).2 rfl).1 "2025-01-01 " " 2025-06-30" (by decide)
  have h4 := h3.1 2025 1 2025 6 (by decide) (by decide)
  rw [h4]
  decide

/-! ## Hierarchy normalizer: structural lemmas shared by C5, C6, C7 -/

theorem relabel_report_type (ov t : String) (r : Row) :
    (relabelOverview ov t r).report_type = r.report_type := by
  unfold relabelOverview; split <;> rfl

theorem relabel_label (ov t : String) (r : Row) :
    (relabelOverview ov t r).label_ko = r.label_ko := by
  unfold relabelOverview; split <;> rfl

theorem relabel_class2 (ov t : String) (r : Row) :
    (relabelOverview ov t r).class2 = r.class2 := by
  unfold relabelOverview; split <;> rfl

theorem relabel_order (ov t : String) (r : Row) :
    (relabelOverview ov t r).order_no = r.order_no := by
  unfold relabelOverview; split <;> rfl

theorem clearDup_report_type (t : String) (r : Row) :
    (clearDupClass2 t r).report_type = r.report_type := by
  unfold clearDupClass2; split <;> rfl

theorem clearDup_label (t : String) (r : Row) :
    (clearDupClass2 t r).label_ko = r.label_ko := by
  unfold clearDupClass2; split <;> rfl

theorem clearDup_class1 (t : String) (r : Row) :
    (clearDupClass2 t r).class1 = r.class1 := by
  unfold clearDupClass2; split <;> rfl

theorem clearDup_order (t : String) (r : Row) :
    (clearDupClass2 t r).order_no = r.order_no := by
  unfold clearDupClass2; split <;> rfl

theorem setOrder_report_type (t : String) (v : ℚ) (r : Row) :
    (setOrderIf t v r).report_type = r.report_type := by
  unfold setOrderIf; split <;> rfl

theorem setOrder_label (t : String) (v : ℚ) (r : Row) :
    (setOrderIf t v r).label_ko = r.label_ko := by
  unfold setOrderIf; split <;> rfl

theorem setOrder_class1 (t : String) (v : ℚ) (r : Row) :
    (setOrderIf t v r).class1 = r.class1 := by
  unfold setOrderIf; split <;> rfl

theorem setOrder_class2 (t : String) (v : ℚ) (r : Row) :
    (setOrderIf t v r).class2 = r.class2 := by
  unfold setOrderIf; split <;> rfl

theorem setOrder_eq_self (t : String) (v : ℚ) (r : Row) (h : r.order_no = v) :
    setOrderIf t v r = r := by
  unfold setOrderIf
  split
  · rw [← h]
  · rfl

theorem setOrder_id (t : String) (v : ℚ) (r : Row)
    (h : ¬(r.report_type = "BS" ∧ r.class1 = t ∧ r.class2 = "")) :
    setOrderIf t v r = r := by
  unfold setOrderIf; rw [if_neg h]

theorem childMask_setOrder (t t2 : String) (v : ℚ) (r : Row) :
    childMask t (setOrderIf t2 v r) = childMask t r := by
  unfold childMask
  rw [setOrder_report_type, setOrder_class1, setOrder_class2]

theorem setOrder_id_of_child (t t2 : String) (v : ℚ) (r : Row)
    (h : childMask t r = true) : setOrderIf t2 v r = r := by
  apply setOrder_id
  rintro ⟨_, _, h2⟩
  unfold childMask at h
  rw [h2] at h
  simp at h

theorem mapChain_eq (rs : List Row) :
    ((((((rs.map (relabelOverview "자산 [개요]" "자산총계")).map
      (relabelOverview "부채 [개요]" "부채총계")).map
      (relabelOverview "자본 [개요]" "자본총계")).map
      (clearDupClass2 "자산총계")).map
      (clearDupClass2 "부채총계")).map
      (clearDupClass2 "자본총계")).map
      (setOrderIf "자산총계" 0) = rs.map normStep := by
  induction rs with
  | nil => simp
  | cons r t ih =>
      simp only [List.map_cons, normStep]
      rw [ih]

theorem improve_eq (rs : List Row) :
    improve_hierarchy_structure rs
      = (reassignTotal "자본총계" (reassignTotal "부채총계" (rs.map normStep))).filter
          keepRow := by
  unfold improve_hierarchy_structure
  dsimp only
  rw [mapChain_eq]

theorem normStep_report_type (r : Row) : (normStep r).report_type = r.report_type := by
  unfold normStep
  rw [setOrder_report_type, clearDup_report_type, clearDup_report_type,
    clearDup_report_type, relabel_report_type, relabel_report_type, relabel_report_type]

theorem normStep_label (r : Row) : (normStep r).label_ko = r.label_ko := by
  unfold normStep
  rw [setOrder_label, clearDup_label, clearDup_label, clearDup_label,
    relabel_label, relabel_label, relabel_label]

theorem normStep_class1 (r : Row) :
    (normStep r).class1 = relabel1 r.report_type r.class1 := by
  unfold normStep relabel1
  rw [setOrder_class1, clearDup_class1, clearDup_class1, clearDup_class1]
  unfold relabelOverview
  split_ifs <;> simp_all

theorem mem_reassign_elim (t : String) (l : List Row) (r : Row)
    (h : r ∈ reassignTotal t l) :
    r ∈ l ∨ ∃ r0 ∈ l, r = setOrderIf t (minOrderD (l.filter (childMask t))) r0 := by
  unfold reassignTotal at h
  by_cases he : (l.filter (childMask t)).isEmpty
  · rw [if_pos he] at h; exact Or.inl h
  · rw [if_neg he] at h
    right
    rw [List.mem_map] at h
    obtain ⟨r0, hr0, he2⟩ := h
    exact ⟨r0, hr0, he2.symm⟩

theorem mem_reassign_of_other (t : String) (l : List Row) (r : Row)
    (h : r ∈ reassignTotal t l) (hc : r.class1 ≠ t) : r ∈ l := by
  rcases mem_reassign_elim t l r h with h2 | ⟨r0, hr0, he⟩
  · exact h2
  · by_cases hm : r0.report_type = "BS" ∧ r0.class1 = t ∧ r0.class2 = ""
    · exfalso
      apply hc
      rw [he, setOrder_class1]
      exact hm.2.1
    · rw [he, setOrder_id t _ r0 hm]
      exact hr0

theorem mem_reassign_of_id (t : String) (l : List Row) (r : Row) (h : r ∈ l)
    (hid : ∀ v, setOrderIf t v r = r) : r ∈ reassignTotal t l := by
  unfold reassignTotal
  by_cases he : (l.filter (childMask t)).isEmpty
  · rw [if_pos he]; exact h
  · rw [if_neg he]
    rw [List.mem_map]
    exact ⟨r, h, hid _⟩

theorem filter_child_reassign (t t2 : String) (l : List Row) :
    (reassignTotal t2 l).filter (childMask t) = l.filter (childMask t) := by
  unfold reassignTotal
  by_cases he : (l.filter (childMask t2)).isEmpty
  · rw [if_pos he]
  · rw [if_neg he]
    exact filter_map_of_inv (childMask t) _ (fun a => childMask_setOrder t t2 _ a)
      (fun a ha => setOrder_id_of_child t t2 _ a ha) l

theorem relabel_id (ov t : String) (r : Row)
    (h : ¬(r.report_type = "BS" ∧ r.class1 = ov)) : relabelOverview ov t r = r := by
  unfold relabelOverview; rw [if_neg h]

theorem clearDup_id (t : String) (r : Row)
    (h : ¬(r.report_type = "BS" ∧ r.class1 = t ∧ r.class2 = t)) :
    clearDupClass2 t r = r := by
  unfold clearDupClass2; rw [if_neg h]

theorem setOrder_order_pos (t : String) (v : ℚ) (r : Row)
    (h : r.report_type = "BS" ∧ r.class1 = t ∧ r.class2 = "") :
    (setOrderIf t v r).order_no = v := by
  unfold setOrderIf; rw [if_pos h]

theorem relabel1_no_overview (rt c : String) (h : rt = "BS") :
    relabel1 rt c ≠ "자산 [개요]" ∧ relabel1 rt c ≠ "부채 [개요]"
    ∧ relabel1 rt c ≠ "자본 [개요]" := by
  subst h
  unfold relabel1
  split_ifs <;> simp_all

theorem clear_est (t : String) (ht : t ≠ "") (p : Row) (hbs : p.report_type = "BS") :
    ¬((clearDupClass2 t p).class1 = t ∧ (clearDupClass2 t p).class2 = t) := by
  unfold clearDupClass2
  split
  · rintro ⟨_, hc⟩
    exact ht hc.symm
  · rename_i hcond
    rintro ⟨h1, h2⟩
    exact hcond ⟨hbs, h1, h2⟩

theorem clear_pres (t t2 : String) (ht : t ≠ "") (p : Row)
    (h : ¬(p.class1 = t ∧ p.class2 = t)) :
    ¬((clearDupClass2 t2 p).class1 = t ∧ (clearDupClass2 t2 p).class2 = t) := by
  unfold clearDupClass2
  split
  · rintro ⟨_, hc⟩
    exact ht hc.symm
  · exact h

theorem setOrder_pres_dup (t t2 : String) (v : ℚ) (p : Row)
    (h : ¬(p.class1 = t ∧ p.class2 = t)) :
    ¬((setOrderIf t2 v p).class1 = t ∧ (setOrderIf t2 v p).class2 = t) := by
  rw [setOrder_class1, setOrder_class2]
  exact h

theorem setOrder_est (p : Row)
    (h : (setOrderIf "자산총계" 0 p).class1 = "자산총계"
        ∧ (setOrderIf "자산총계" 0 p).class2 = "")
    (hbs : (setOrderIf "자산총계" 0 p).report_type = "BS") :
    (setOrderIf "자산총계" 0 p).order_no = 0 := by
  rw [setOrder_class1] at h
  rw [setOrder_report_type] at hbs
  have h2 : p.class2 = "" := by
    have := h.2
    rw [setOrder_class2] at this
    exact this
  rw [setOrder_order_pos _ _ _ ⟨hbs, h.1, h2⟩]

theorem norm_normStep (r : Row) : Norm (normStep r) := by
  intro hbs
  have hbsr : r.report_type = "BS" := by
    rw [normStep_report_type] at hbs
    exact hbs
  obtain ⟨o1, o2, o3⟩ := relabel1_no_overview r.report_type r.class1 hbsr
  have hc1 := normStep_class1 r
  have hq3 : (relabelOverview "자본 [개요]" "자본총계" (relabelOverview "부채 [개요]" "부채총계"
      (relabelOverview "자산 [개요]" "자산총계" r))).report_type = "BS" := by
    rw [relabel_report_type, relabel_report_type, relabel_report_type]
    exact hbsr
  have hq4 : (clearDupClass2 "자산총계" (relabelOverview "자본 [개요]" "자본총계"
      (relabelOverview "부채 [개요]" "부채총계"
        (relabelOverview "자산 [개요]" "자산총계" r)))).report_type = "BS" := by
    rw [clearDup_report_type]
    exact hq3
  have hq5 : (clearDupClass2 "부채총계" (clearDupClass2 "자산총계"
      (relabelOverview "자본 [개요]" "자본총계" (relabelOverview "부채 [개요]" "부채총계"
        (relabelOverview "자산 [개요]" "자산총계" r))))).report_type = "BS" := by
    rw [clearDup_report_type]
    exact hq4
  refine ⟨by rw [hc1]; exact o1, by rw [hc1]; exact o2, by rw [hc1]; exact o3, ?_, ?_, ?_, ?_⟩
  · exact setOrder_pres_dup _ _ _ _ (clear_pres _ _ (by decide) _
      (clear_pres _ _ (by decide) _ (clear_est "자산총계" (by decide) _ hq3)))
  · exact setOrder_pres_dup _ _ _ _ (clear_pres _ _ (by decide) _
      (clear_est "부채총계" (by decide) _ hq4))
  · exact setOrder_pres_dup _ _ _ _ (clear_est "자본총계" (by decide) _ hq5)
  · intro hx
    exact setOrder_est _ ⟨hx.1, hx.2⟩ hbs

theorem norm_setOrder (t : String) (ht : t = "부채총계" ∨ t = "자본총계") (v : ℚ)
    (r : Row) (h : Norm r) : Norm (setOrderIf t v r) := by
  intro hbs
  rw [setOrder_report_type] at hbs
  obtain ⟨n1, n2, n3, n4, n5, n6, n7⟩ := h hbs
  unfold setOrderIf
  split
  · rename_i hm
    refine ⟨n1, n2, n3, n4, n5, n6, ?_⟩
    intro hx
    exfalso
    have hta : t = "자산총계" := hm.2.1.symm.trans hx.1
    rcases ht with ht | ht <;> rw [ht] at hta <;> exact absurd hta (by decide)
  · exact ⟨n1, n2, n3, n4, n5, n6, n7⟩

theorem normStep_fix (r : Row) (h : Norm r) : normStep r = r := by
  unfold normStep
  by_cases hbs : r.report_type = "BS"
  · obtain ⟨n1, n2, n3, n4, n5, n6, n7⟩ := h hbs
    rw [relabel_id _ _ _ (fun hc => n1 hc.2),
      relabel_id _ _ _ (fun hc => n2 hc.2),
      relabel_id _ _ _ (fun hc => n3 hc.2),
      clearDup_id _ _ (fun hc => n4 ⟨hc.2.1, hc.2.2⟩),
      clearDup_id _ _ (fun hc => n5 ⟨hc.2.1, hc.2.2⟩),
      clearDup_id _ _ (fun hc => n6 ⟨hc.2.1, hc.2.2⟩)]
    by_cases hm : r.report_type = "BS" ∧ r.class1 = "자산총계" ∧ r.class2 = ""
    · exact setOrder_eq_self _ _ _ (n7 ⟨hm.2.1, hm.2.2⟩)
    · exact setOrder_id _ _ _ hm
  · rw [relabel_id _ _ _ (fun hc => hbs hc.1),
      relabel_id _ _ _ (fun hc => hbs hc.1),
      relabel_id _ _ _ (fun hc => hbs hc.1),
      clearDup_id _ _ (fun hc => hbs hc.1),
      clearDup_id _ _ (fun hc => hbs hc.1),
      clearDup_id _ _ (fun hc => hbs hc.1),
      setOrder_id _ _ _ (fun hc => hbs hc.1)]

theorem norm_mem_reassign (t : String) (ht : t = "부채총계" ∨ t = "자본총계")
    (l : List Row) (hl : ∀ x ∈ l, Norm x) : ∀ r ∈ reassignTotal t l, Norm r := by
  intro r h
  rcases mem_reassign_elim t l r h with h2 | ⟨r0, hr0, he⟩
  · exact hl r h2
  · rw [he]; exact norm_setOrder t ht _ r0 (hl r0 hr0)

theorem norm_improve (rs : List Row) : ∀ r ∈ improve_hierarchy_structure rs, Norm r := by
  intro r h
  rw [improve_eq] at h
  have h1 := (List.mem_filter.mp h).1
  have hz : ∀ x ∈ rs.map normStep, Norm x := by
    intro x hx
    rw [List.mem_map] at hx
    obtain ⟨x0, _, he⟩ := hx
    rw [← he]
    exact norm_normStep x0
  exact norm_mem_reassign "자본총계" (Or.inr rfl) _
    (norm_mem_reassign "부채총계" (Or.inl rfl) _ hz) r h1

/-- C5 counterexample: when `class2` carries the overview label (rather than
the total label), step 2 never fires — after normalization `class2` is still
the overview placeholder and the ordinal is unchanged, contradicting the
claimed `class2 = ""` and ordinal 0. -/
theorem claim_C5_cex :
    (improve_hierarchy_structure [rCex5]).map (fun r => (r.class1, r.class2, r.order_no))
      = [("자산총계", "자산 [개요]", 7)]
    ∧ ("자산 [개요]" : String) ≠ "" ∧ (7 : ℚ) ≠ 0 := by
  decide

/-- C5 (amended): a statement-of-position record entering with
class1 = 자산 [개요] and class2 = 자산총계 (the shape on which step 2 fires,
since step 1 rewrites only class1) leaves normalization with
class1 = 자산총계, class2 = "" and ordinal 0, provided its label is not the
removed combined-total label. -/
theorem claim_C5 (rs : List Row) (r : Row) (hmem : r ∈ rs)
    (h1 : r.report_type = "BS") (h2 : r.class1 = "자산 [개요]") (h3 : r.class2 = "자산총계")
    (h4 : r.label_ko ≠ "자본과부채총계") :
    ({ r with class1 := "자산총계", class2 := "", order_no := 0 } : Row)
      ∈ improve_hierarchy_structure rs := by
  rw [improve_eq]
  have hstep : normStep r = { r with class1 := "자산총계", class2 := "", order_no := 0 } := by
    unfold normStep relabelOverview clearDupClass2 setOrderIf
    simp [h1, h2, h3]
  have hm1 : ({ r with class1 := "자산총계", class2 := "", order_no := 0 } : Row)
      ∈ rs.map normStep := by
    rw [← hstep]
    exact List.mem_map_of_mem normStep hmem
  have hid1 : ∀ v, setOrderIf "부채총계" v
      ({ r with class1 := "자산총계", class2 := "", order_no := 0 } : Row)
      = { r with class1 := "자산총계", class2 := "", order_no := 0 } := by
    intro v
    apply setOrder_id
    rintro ⟨_, hc, _⟩
    exact absurd (show ("자산총계" : String) = "부채총계" from hc) (by decide)
  have hid2 : ∀ v, setOrderIf "자본총계" v
      ({ r with class1 := "자산총계", class2 := "", order_no := 0 } : Row)
      = { r with class1 := "자산총계", class2 := "", order_no := 0 } := by
    intro v
    apply setOrder_id
    rintro ⟨_, hc, _⟩
    exact absurd (show ("자산총계" : String) = "자본총계" from hc) (by decide)
  have hm2 := mem_reassign_of_id "부채총계" _ _ hm1 hid1
  have hm3 := mem_reassign_of_id "자본총계" _ _ hm2 hid2
  apply List.mem_filter.mpr
  refine ⟨hm3, ?_⟩
  unfold keepRow
  have hl : ({ r with class1 := "자산총계", class2 := "", order_no := 0 } : Row).label_ko
      = r.label_ko := rfl
  rw [hl]
  simp [h4]

theorem claim_C5_witness :
    ({ rW5 with class1 := "자산총계", class2 := "", order_no := 0 } : Row)
      ∈ improve_hierarchy_structure [rW5] :=
  claim_C5 [rW5] rW5 (by decide) (by decide) (by decide) (by decide) (by decide)

/-- C6 counterexample: after normalization two records carry
class1 = 자산총계 with empty class2, so "at most one record" fails (both do
get ordinal 0). -/
theorem claim_C6_cex :
    ((improve_hierarchy_structure [rCex6a, rCex6b]).filter
      (fun r => r.report_type == "BS" && r.class1 == "자산총계" && r.class2 == "")).length
      = 2 := by
  decide

/-- C6 (amended): after normalization, every statement-of-position record
with class1 = 자산총계 and empty class2 has ordinal exactly 0; such a record
need not be unique. -/
theorem claim_C6 (rs : List Row) (r : Row) (h : r ∈ improve_hierarchy_structure rs)
    (h1 : r.report_type = "BS") (h2 : r.class1 = "자산총계") (h3 : r.class2 = "") :
    r.order_no = 0 := by
  have hn := norm_improve rs r h h1
  exact hn.2.2.2.2.2.2 ⟨h2, h3⟩

theorem claim_C6_witness :
    ({ rCex6a with class2 := "", order_no := 0 } : Row)
      ∈ improve_hierarchy_structure [rCex6a, rCex6b]
    ∧ ({ rCex6a with class2 := "", order_no := 0 } : Row).order_no = 0 := by
  constructor
  · decide
  · exact claim_C6 [rCex6a, rCex6b] ({ rCex6a with class2 := "", order_no := 0 })
      (by decide) (by decide) (by decide) (by decide)

theorem filter_filter_of_imp {α : Type} (p q : α → Bool) (l : List α)
    (h : ∀ a ∈ l, q a = true → p a = true) :
    (l.filter p).filter q = l.filter q := by
  induction l with
  | nil => rfl
  | cons a tl ih =>
      have ih2 := ih (fun b hb => h b (List.mem_cons_of_mem a hb))
      rw [List.filter_cons, List.filter_cons]
      by_cases hq : q a = true
      · have hp := h a (List.mem_cons_self a tl) hq
        rw [if_pos hp, if_pos hq, List.filter_cons, if_pos hq, ih2]
      · by_cases hp : p a = true
        · rw [if_pos hp, if_neg hq, List.filter_cons, if_neg hq, ih2]
        · rw [if_neg hp, if_neg hq, ih2]

theorem filter_all_true {α : Type} (p : α → Bool) (l : List α)
    (h : ∀ a ∈ l, p a = true) : l.filter p = l := by
  induction l with
  | nil => rfl
  | cons a tl ih =>
      rw [List.filter_cons, if_pos (h a (List.mem_cons_self a tl))]
      exact congrArg _ (ih (fun b hb => h b (List.mem_cons_of_mem a hb)))

/-- C7 counterexample: applying the normalizer twice moves the liabilities
total to a different ordinal than applying it once. -/
theorem claim_C7_cex :
    improve_hierarchy_structure (improve_hierarchy_structure rsCex7)
      ≠ improve_hierarchy_structure rsCex7 := by
  decide

theorem improve_eq_stage (rs : List Row) :
    improve_hierarchy_structure rs = stageY rs :=
  improve_eq rs

theorem reassign_transport (t : String) (P : Row → Prop)
    (hP : ∀ (v : ℚ) (x : Row), P x → P (setOrderIf t v x)) (l : List Row)
    (hl : ∀ x ∈ l, P x) : ∀ r ∈ reassignTotal t l, P r := by
  intro r h
  rcases mem_reassign_elim t l r h with h2 | ⟨r0, hr0, he⟩
  · exact hl r h2
  · rw [he]
    exact hP _ r0 (hl r0 hr0)

theorem mem_stageW_fields (rs : List Row) :
    ∀ r ∈ stageW rs, ∃ r0 ∈ rs, r.report_type = r0.report_type
      ∧ r.label_ko = r0.label_ko
      ∧ r.class1 = relabel1 r0.report_type r0.class1 := by
  have base : ∀ x ∈ stageZ rs, ∃ r0 ∈ rs, x.report_type = r0.report_type
      ∧ x.label_ko = r0.label_ko ∧ x.class1 = relabel1 r0.report_type r0.class1 := by
    intro x hx
    unfold stageZ at hx
    rw [List.mem_map] at hx
    obtain ⟨r0, hr0, he⟩ := hx
    refine ⟨r0, hr0, ?_, ?_, ?_⟩
    · rw [← he, normStep_report_type]
    · rw [← he, normStep_label]
    · rw [← he, normStep_class1]
  have pres : ∀ (t : String) (v : ℚ) (x : Row),
      (∃ r0 ∈ rs, x.report_type = r0.report_type ∧ x.label_ko = r0.label_ko
        ∧ x.class1 = relabel1 r0.report_type r0.class1) →
      (∃ r0 ∈ rs, (setOrderIf t v x).report_type = r0.report_type
        ∧ (setOrderIf t v x).label_ko = r0.label_ko
        ∧ (setOrderIf t v x).class1 = relabel1 r0.report_type r0.class1) := by
    rintro t v x ⟨r0, hr0, h1, h2, h3⟩
    refine ⟨r0, hr0, ?_, ?_, ?_⟩
    · rw [setOrder_report_type]; exact h1
    · rw [setOrder_label]; exact h2
    · rw [setOrder_class1]; exact h3
  intro r hr
  unfold stageW at hr
  exact reassign_transport "자본총계" _ (pres "자본총계") _
    (fun x hx => reassign_transport "부채총계" _ (pres "부채총계") _ base x hx) r hr

theorem relabel1_debt_src (c : String) (h : relabel1 "BS" c = "부채총계") :
    c = "부채총계" ∨ c = "부채 [개요]" := by
  unfold relabel1 at h
  split_ifs at h <;> simp_all

theorem relabel1_equity_src (c : String) (h : relabel1 "BS" c = "자본총계") :
    c = "자본총계" ∨ c = "자본 [개요]" := by
  unfold relabel1 at h
  split_ifs at h <;> simp_all

theorem w_child_keep (rs : List Row) (H : NoSectionCombined rs) (t : String)
    (ht : t = "부채총계" ∨ t = "자본총계") :
    ∀ r ∈ stageW rs, childMask t r = true → keepRow r = true := by
  intro r hr hc
  rw [childMask, Bool.and_eq_true, Bool.and_eq_true] at hc
  obtain ⟨⟨hcr, hcc1⟩, _⟩ := hc
  rw [beq_iff_eq] at hcr hcc1
  by_cases hl : r.label_ko = "자본과부채총계"
  · exfalso
    obtain ⟨r0, hr0, hrt, hlb, hc1⟩ := mem_stageW_fields rs r hr
    have hb0 : r0.report_type = "BS" := by rw [← hrt]; exact hcr
    have hl0 : r0.label_ko = "자본과부채총계" := by rw [← hlb]; exact hl
    obtain ⟨x1, x2, x3, x4⟩ := H r0 hr0 hb0 hl0
    have hrel : relabel1 r0.report_type r0.class1 = t := by rw [← hc1]; exact hcc1
    rw [hb0] at hrel
    rcases ht with ht | ht <;> subst ht
    · rcases relabel1_debt_src r0.class1 hrel with h | h
      exacts [x1 h, x2 h]
    · rcases relabel1_equity_src r0.class1 hrel with h | h
      exacts [x3 h, x4 h]
  · unfold keepRow
    simp [hl]

theorem stage_child_D (rs : List Row) (H : NoSectionCombined rs) :
    (stageY rs).filter (childMask "부채총계") = (stageZ rs).filter (childMask "부채총계") := by
  unfold stageY
  rw [filter_filter_of_imp keepRow (childMask "부채총계") (stageW rs)
    (w_child_keep rs H "부채총계" (Or.inl rfl))]
  unfold stageW
  rw [filter_child_reassign "부채총계" "자본총계" (stageLD rs)]
  unfold stageLD
  rw [filter_child_reassign "부채총계" "부채총계" (stageZ rs)]

theorem stage_child_E (rs : List Row) (H : NoSectionCombined rs) :
    (stageY rs).filter (childMask "자본총계") = (stageLD rs).filter (childMask "자본총계") := by
  unfold stageY
  rw [filter_filter_of_imp keepRow (childMask "자본총계") (stageW rs)
    (w_child_keep rs H "자본총계" (Or.inr rfl))]
  unfold stageW
  rw [filter_child_reassign "자본총계" "자본총계" (stageLD rs)]

theorem stage_keep (rs : List Row) : ∀ r ∈ stageY rs, keepRow r = true := by
  intro r hr
  unfold stageY at hr
  exact (List.mem_filter.mp hr).2

theorem stage_norm (rs : List Row) : ∀ r ∈ stageY rs, Norm r := by
  intro r hr
  apply norm_improve rs r
  rw [improve_eq_stage]
  exact hr

theorem stage_map_normStep (rs : List Row) : (stageY rs).map normStep = stageY rs :=
  map_id_on _ _ (fun r hr => normStep_fix r (stage_norm rs r hr))

theorem stage_debt_order (rs : List Row)
    (hne : ¬((stageZ rs).filter (childMask "부채총계")).isEmpty = true) :
    ∀ r ∈ stageY rs, (r.report_type = "BS" ∧ r.class1 = "부채총계" ∧ r.class2 = "") →
      r.order_no = minOrderD ((stageZ rs).filter (childMask "부채총계")) := by
  intro r hr hm
  have hrw : r ∈ stageW rs := by
    unfold stageY at hr
    exact (List.mem_filter.mp hr).1
  have hrlD : r ∈ stageLD rs := by
    unfold stageW at hrw
    refine mem_reassign_of_other "자본총계" _ _ hrw ?_
    rw [hm.2.1]
    decide
  have hlDeq : stageLD rs
      = (stageZ rs).map (setOrderIf "부채총계"
          (minOrderD ((stageZ rs).filter (childMask "부채총계")))) := by
    unfold stageLD reassignTotal
    dsimp only
    rw [if_neg hne]
  rw [hlDeq, List.mem_map] at hrlD
  obtain ⟨r2, _, he⟩ := hrlD
  have hm2 : r2.report_type = "BS" ∧ r2.class1 = "부채총계" ∧ r2.class2 = "" := by
    refine ⟨?_, ?_, ?_⟩
    · rw [← setOrder_report_type "부채총계"
        (minOrderD ((stageZ rs).filter (childMask "부채총계"))) r2, he]
      exact hm.1
    · rw [← setOrder_class1 "부채총계"
        (minOrderD ((stageZ rs).filter (childMask "부채총계"))) r2, he]
      exact hm.2.1
    · rw [← setOrder_class2 "부채총계"
        (minOrderD ((stageZ rs).filter (childMask "부채총계"))) r2, he]
      exact hm.2.2
  rw [← he, setOrder_order_pos _ _ _ hm2]

theorem stage_equity_order (rs : List Row)
    (hne : ¬((stageLD rs).filter (childMask "자본총계")).isEmpty = true) :
    ∀ r ∈ stageY rs, (r.report_type = "BS" ∧ r.class1 = "자본총계" ∧ r.class2 = "") →
      r.order_no = minOrderD ((stageLD rs).filter (childMask "자본총계")) := by
  intro r hr hm
  have hrw : r ∈ stageW rs := by
    unfold stageY at hr
    exact (List.mem_filter.mp hr).1
  have hweq : stageW rs
      = (stageLD rs).map (setOrderIf "자본총계"
          (minOrderD ((stageLD rs).filter (childMask "자본총계")))) := by
    unfold stageW reassignTotal
    dsimp only
    rw [if_neg hne]
  rw [hweq, List.mem_map] at hrw
  obtain ⟨r2, _, he⟩ := hrw
  have hm2 : r2.report_type = "BS" ∧ r2.class1 = "자본총계" ∧ r2.class2 = "" := by
    refine ⟨?_, ?_, ?_⟩
    · rw [← setOrder_report_type "자본총계"
        (minOrderD ((stageLD rs).filter (childMask "자본총계"))) r2, he]
      exact hm.1
    · rw [← setOrder_class1 "자본총계"
        (minOrderD ((stageLD rs).filter (childMask "자본총계"))) r2, he]
      exact hm.2.1
    · rw [← setOrder_class2 "자본총계"
        (minOrderD ((stageLD rs).filter (childMask "자본총계"))) r2, he]
      exact hm.2.2
  rw [← he, setOrder_order_pos _ _ _ hm2]

theorem stage_reassign_debt (rs : List Row) (H : NoSectionCombined rs) :
    reassignTotal "부채총계" (stageY rs) = stageY rs := by
  by_cases hDz : ((stageZ rs).filter (childMask "부채총계")).isEmpty = true
  · unfold reassignTotal
    dsimp only
    rw [stage_child_D rs H, if_pos hDz]
  · unfold reassignTotal
    dsimp only
    rw [stage_child_D rs H, if_neg hDz]
    apply map_id_on
    intro r hr
    by_cases hm : r.report_type = "BS" ∧ r.class1 = "부채총계" ∧ r.class2 = ""
    · exact setOrder_eq_self _ _ _ (stage_debt_order rs hDz r hr hm)
    · exact setOrder_id _ _ _ hm

theorem stage_reassign_equity (rs : List Row) (H : NoSectionCombined rs) :
    reassignTotal "자본총계" (stageY rs) = stageY rs := by
  by_cases hEz : ((stageLD rs).filter (childMask "자본총계")).isEmpty = true
  · unfold reassignTotal
    dsimp only
    rw [stage_child_E rs H, if_pos hEz]
  · unfold reassignTotal
    dsimp only
    rw [stage_child_E rs H, if_neg hEz]
    apply map_id_on
    intro r hr
    by_cases hm : r.report_type = "BS" ∧ r.class1 = "자본총계" ∧ r.class2 = ""
    · exact setOrder_eq_self _ _ _ (stage_equity_order rs hEz r hr hm)
    · exact setOrder_id _ _ _ hm

/-- C7 (amended): the hierarchy normalizer is idempotent on every record set
in which no combined-total (자본과부채총계) row sits inside the liabilities or
equity section — removal of such a row in the first pass is what can change
the child-minimum ordinals a second pass would compute. -/
theorem claim_C7 (rs : List Row) (H : NoSectionCombined rs) :
    improve_hierarchy_structure (improve_hierarchy_structure rs)
      = improve_hierarchy_structure rs := by
  rw [improve_eq_stage rs, improve_eq_stage (stageY rs)]
  show (reassignTotal "자본총계" (reassignTotal "부채총계"
      ((stageY rs).map normStep))).filter keepRow = stageY rs
  rw [stage_map_normStep rs, stage_reassign_debt rs H, stage_reassign_equity rs H]
  exact filter_all_true keepRow (stageY rs) (stage_keep rs)

theorem claim_C7_witness :
    improve_hierarchy_structure (improve_hierarchy_structure rsW7)
      = improve_hierarchy_structure rsW7 :=
  claim_C7 rsW7 (by unfold NoSectionCombined; decide)

/-! ## C3: report-period filtering -/

theorem ymAt_len (c : Char) (rest : List Char) (s : String)
    (h : ymAt c rest = some s) : s.length = 6 := by
  unfold ymAt at h
  split at h
  · split at h
    · injection h with h
      rw [← h]
      rfl
    · exact absurd h (by simp)
  · exact absurd h (by simp)

theorem extractYmAux_shape (cs : List Char) :
    extractYmAux cs = "" ∨ (extractYmAux cs).length = 6 := by
  induction cs with
  | nil => exact Or.inl rfl
  | cons c rest ih =>
      rw [extractYmAux]
      cases h : ymAt c rest with
      | some s => exact Or.inr (ymAt_len c rest s h)
      | none => exact ih

theorem extract_period_shape (nm : String) :
    extract_period_from_report_name nm = ""
    ∨ (extract_period_from_report_name nm).length = 6 :=
  extractYmAux_shape nm.toList

theorem applyPeriodFilter_eq_filter (md : Metadata) (rs : List Row) (r : String)
    (ht : reportPeriodYyyymm md = some r) :
    applyPeriodFilter md rs
      = rs.filter (fun row => containsSub row.period (targetPattern r)) := by
  unfold applyPeriodFilter
  by_cases he : rs.isEmpty = true
  · have hrs : rs = [] := by
      cases rs with
      | nil => rfl
      | cons a t => simp at he
    subst hrs
    simp
  · rw [if_neg he, ht]

theorem applyPeriodFilter_skip (md : Metadata) (rs : List Row)
    (ht : reportPeriodYyyymm md = none) : applyPeriodFilter md rs = rs := by
  unfold applyPeriodFilter
  by_cases he : rs.isEmpty = true
  · rw [if_pos he]
  · rw [if_neg he, ht]

theorem reportPeriod_of_title (md : Metadata) (nm : String)
    (hnm : md.report_nm = some nm) (hne : extract_period_from_report_name nm ≠ "") :
    reportPeriodYyyymm md = some (extract_period_from_report_name nm) := by
  have h6 : (extract_period_from_report_name nm).length = 6 :=
    (extract_period_shape nm).resolve_left hne
  unfold reportPeriodYyyymm
  rw [hnm]
  simp [hne, h6]

theorem reportPeriod_of_metadata (md : Metadata)
    (hfrom : md.report_nm = none
      ∨ ∃ nm, md.report_nm = some nm ∧ extract_period_from_report_name nm = "")
    (hy : md.yyyy ≠ "") (hm : md.month ≠ "") (hly : md.yyyy.length = 4)
    (hlm : md.month.length = 2) :
    reportPeriodYyyymm md = some (md.yyyy ++ md.month) := by
  have hlen : (md.yyyy ++ md.month).length = 6 := by
    rw [String.length_append, hly, hlm]
  have hne : md.yyyy ++ md.month ≠ "" := by
    intro hx
    rw [hx] at hlen
    simp at hlen
  unfold reportPeriodYyyymm
  rcases hfrom with h | ⟨nm, hnm, hext⟩
  · rw [h]
    simp [hy, hm, hly, hlm, hlen, hne]
  · rw [hnm]
    simp [hext, hy, hm, hly, hlm, hlen, hne]

theorem reportPeriod_none (md : Metadata)
    (hfrom : md.report_nm = none
      ∨ ∃ nm, md.report_nm = some nm ∧ extract_period_from_report_name nm = "")
    (hym : md.yyyy = "" ∨ md.month = "") :
    reportPeriodYyyymm md = none := by
  unfold reportPeriodYyyymm
  rcases hfrom with h | ⟨nm, hnm, hext⟩
  · rw [h]
    rcases hym with hym | hym <;> simp [hym]
  · rw [hnm]
    rcases hym with hym | hym <;> simp [hext, hym]

/-- C3: the period filter's target is taken from the report title's
`(YYYY.MM)` marker when one is present, else from the metadata year/month
when they are the data model's nonempty 4- and 2-digit strings; when neither
is available every record passes through, and otherwise a record is kept
exactly when its formatted period contains the `YYYY-MM` pattern. -/
theorem claim_C3 (md : Metadata) (rs : List Row)
    (hy : md.yyyy = "" ∨ (md.yyyy.length = 4 ∧ allDigits md.yyyy = true))
    (hm : md.month = "" ∨ (md.month.length = 2 ∧ allDigits md.month = true)) :
    (∀ nm, md.report_nm = some nm → extract_period_from_report_name nm ≠ "" →
        applyPeriodFilter md rs = rs.filter (fun row =>
          containsSub row.period
            (targetPattern (extract_period_from_report_name nm))))
    ∧ ((md.report_nm = none
          ∨ ∃ nm, md.report_nm = some nm ∧ extract_period_from_report_name nm = "") →
        md.yyyy ≠ "" → md.month ≠ "" →
        applyPeriodFilter md rs = rs.filter (fun row =>
          containsSub row.period (targetPattern (md.yyyy ++ md.month))))
    ∧ ((md.report_nm = none
          ∨ ∃ nm, md.report_nm = some nm ∧ extract_period_from_report_name nm = "") →
        (md.yyyy = "" ∨ md.month = "") →
        applyPeriodFilter md rs = rs) := by
  refine ⟨?_, ?_, ?_⟩
  · intro nm hnm hne
    exact applyPeriodFilter_eq_filter md rs _ (reportPeriod_of_title md nm hnm hne)
  · intro hfrom hyne hmne
    have hly : md.yyyy.length = 4 := (hy.resolve_left hyne).1
    have hlm : md.month.length = 2 := (hm.resolve_left hmne).1
    exact applyPeriodFilter_eq_filter md rs _
      (reportPeriod_of_metadata md hfrom hyne hmne hly hlm)
  · intro hfrom hym
    exact applyPeriodFilter_skip md rs (reportPeriod_none md hfrom hym)

theorem claim_C3_witness :
    applyPeriodFilter mdW3 rsW3 = [{ rW1 with period := "2025-06-30" }] := by
  rw [(claim_C3 mdW3 rsW3 (by decide) (by decide)).1 "반기보고서 (2025.06)" rfl (by decide)]
  decide

end DartXbrl
